import Mathlib

/-!
# Verification of the particle engine of `cppsdl`

This file is a shallow embedding in Lean 4 of the particle simulation core
of the repository (src/particle_system.cpp together with src/utils.cpp):
the `Vec2` / `Color` utilities, `ForceField`, `Particle` and
`ParticleEmitter`, followed by theorems about them.

Modelling conventions:

* C++ `float` values are modelled as real numbers (`ℝ`); float literals such
  as `0.98f` are read as the rational numbers they denote in the source text.
* The shared random generator (`Utils::randomFloat`, backed by one global
  `std::mt19937`) is modelled by an explicit stream of unit draws
  `stream : ℕ → ℝ` together with a counter of draws consumed so far;
  `randomFloat lo hi` returns `lo + (hi - lo) * stream k` and advances the
  counter.  Theorems quantify over the stream, so they hold for every
  possible sequence of random outcomes.
* The function-local `static float spiralAngle` of
  `ParticleEmitter::getEmissionPosition` is global mutable state in the
  source; it travels in the same `Globals` record as the random counter.
* The configuration fields of `ParticleEmitter` (emission ranges, pattern,
  physics defaults, callbacks, ...) are read but never written by `emit`,
  `update` and `clear`; the embedding therefore splits the C++ struct into
  an immutable `EmitterConfig` and the mutable `EmitterState`
  (active list, pool, emission accumulator, burst timer).  The pool is
  represented as a list whose head is the back of the C++ vector (the next
  particle handed out), and the capacity is the value `maxParticles` has
  when the pool is built in `init()`.
* `std::atan2 (y, x)` is modelled as the argument of the complex number
  `x + y*I`, which has the same value range and the same value `0` at the
  origin.
-/

noncomputable section

/-- `TWO_PI` from src/utils.cpp. -/
def TWO_PI : ℝ := 2 * Real.pi

/-- `HALF_PI` from src/utils.cpp. -/
def HALF_PI : ℝ := Real.pi / 2

/-- 2D vector (`Vec2` of src/utils.cpp), float components modelled as reals. -/
@[ext] structure Vec2 where
  x : ℝ
  y : ℝ

namespace Vec2

instance : Neg Vec2 := ⟨fun v => ⟨-v.x, -v.y⟩⟩
instance : Add Vec2 := ⟨fun a b => ⟨a.x + b.x, a.y + b.y⟩⟩
instance : Sub Vec2 := ⟨fun a b => ⟨a.x - b.x, a.y - b.y⟩⟩
instance : HMul Vec2 ℝ Vec2 := ⟨fun v s => ⟨v.x * s, v.y * s⟩⟩
instance : HDiv Vec2 ℝ Vec2 := ⟨fun v s => ⟨v.x / s, v.y / s⟩⟩

@[simp] theorem neg_x (v : Vec2) : (-v).x = -v.x := rfl
@[simp] theorem neg_y (v : Vec2) : (-v).y = -v.y := rfl
@[simp] theorem add_x (a b : Vec2) : (a + b).x = a.x + b.x := rfl
@[simp] theorem add_y (a b : Vec2) : (a + b).y = a.y + b.y := rfl
@[simp] theorem sub_x (a b : Vec2) : (a - b).x = a.x - b.x := rfl
@[simp] theorem sub_y (a b : Vec2) : (a - b).y = a.y - b.y := rfl
@[simp] theorem smul_x (v : Vec2) (s : ℝ) : (v * s).x = v.x * s := rfl
@[simp] theorem smul_y (v : Vec2) (s : ℝ) : (v * s).y = v.y * s := rfl
@[simp] theorem div_x (v : Vec2) (s : ℝ) : (v / s).x = v.x / s := rfl
@[simp] theorem div_y (v : Vec2) (s : ℝ) : (v / s).y = v.y / s := rfl

/-- `Vec2::length`. -/
def length (v : Vec2) : ℝ := Real.sqrt (v.x * v.x + v.y * v.y)

/-- `Vec2::lengthSq`. -/
def lengthSq (v : Vec2) : ℝ := v.x * v.x + v.y * v.y

/-- `Vec2::normalized`: `len > 0 ? Vec2(x/len, y/len) : Vec2(0, 0)`. -/
def normalized (v : Vec2) : Vec2 :=
  let len := v.length
  if 0 < len then ⟨v.x / len, v.y / len⟩ else ⟨0, 0⟩

/-- `Vec2::dot`. -/
def dot (a b : Vec2) : ℝ := a.x * b.x + a.y * b.y

/-- `Vec2::cross`. -/
def cross (a b : Vec2) : ℝ := a.x * b.y - a.y * b.x

/-- `Vec2::rotate`. -/
def rotate (v : Vec2) (angle : ℝ) : Vec2 :=
  ⟨v.x * Real.cos angle - v.y * Real.sin angle,
   v.x * Real.sin angle + v.y * Real.cos angle⟩

/-- `Vec2::perpendicular`. -/
def perpendicular (v : Vec2) : Vec2 := ⟨-v.y, v.x⟩

/-- `Vec2::lerp`. -/
def lerp (a b : Vec2) (t : ℝ) : Vec2 := a + (b - a) * t

/-- `Vec2::fromAngle`. -/
def fromAngle (angle magnitude : ℝ) : Vec2 :=
  ⟨Real.cos angle * magnitude, Real.sin angle * magnitude⟩

@[simp] theorem fromAngle_x (a m : ℝ) : (fromAngle a m).x = Real.cos a * m := rfl
@[simp] theorem fromAngle_y (a m : ℝ) : (fromAngle a m).y = Real.sin a * m := rfl

end Vec2

/-- `std::atan2(y, x)`, modelled as the argument of the complex number `x + y*I`. -/
def atan2 (y x : ℝ) : ℝ := Complex.arg ⟨x, y⟩

/-- `Vec2::angle`. -/
def Vec2.angle (v : Vec2) : ℝ := atan2 v.y v.x

/-- `Color` of src/utils.cpp (float channels as reals). -/
@[ext] structure Color where
  r : ℝ
  g : ℝ
  b : ℝ
  a : ℝ

namespace Color

instance : HMul Color ℝ Color := ⟨fun c s => ⟨c.r * s, c.g * s, c.b * s, c.a * s⟩⟩
instance : Add Color := ⟨fun c d => ⟨c.r + d.r, c.g + d.g, c.b + d.b, c.a + d.a⟩⟩

/-- `Color::lerp`. -/
def lerp (a b : Color) (t : ℝ) : Color :=
  ⟨a.r + (b.r - a.r) * t, a.g + (b.g - a.g) * t,
   a.b + (b.b - a.b) * t, a.a + (b.a - a.a) * t⟩

@[simp] theorem lerp_zero (a b : Color) : lerp a b 0 = a := by
  simp [lerp]

@[simp] theorem lerp_one (a b : Color) : lerp a b 1 = b := by
  simp [lerp]

/-- The `Color(int, int, int, int)` constructor, dividing 0-255 channels by 255. -/
def ofInt (r g b : ℤ) (a : ℤ) : Color :=
  ⟨(r : ℝ) / 255, (g : ℝ) / 255, (b : ℝ) / 255, (a : ℝ) / 255⟩

/-- The default `Color()` constructor: opaque white `(1, 1, 1, 1)`. -/
def white : Color := ⟨1, 1, 1, 1⟩

end Color

namespace Utils

/-- `Utils::clamp`. -/
def clamp (value lo hi : ℝ) : ℝ := max lo (min hi value)

/-- `Utils::lerp`.  Note the argument order `(a, b, t)`. -/
def lerp (a b t : ℝ) : ℝ := a + (b - a) * t

/-- `Utils::easeInOutCubic`. -/
def easeInOutCubic (t : ℝ) : ℝ :=
  if t < 1/2 then 4 * t * t * t else (t - 1) * (2 * t - 2) * (2 * t - 2) + 1

/-- `Utils::fade`, the Perlin smoothing polynomial. -/
def fade (t : ℝ) : ℝ := t * t * t * (t * (t * 6 - 15) + 10)

/-- `Utils::grad` for 2D Perlin noise.  `h & 1` and `h & 2` on `h = hash & 3`
are rendered as parity tests on `hash % 4`. -/
def grad (hash : ℕ) (x y : ℝ) : ℝ :=
  let h := hash % 4
  let u := if h < 2 then x else y
  let v := if h < 2 then y else x
  (if h % 2 = 0 then u else -u) + (if h / 2 % 2 = 0 then v else -v)

/-- The first 256 entries of the Perlin permutation table of src/utils.cpp. -/
def permBase : List ℕ :=
  [151,160,137,91,90,15,131,13,201,95,96,53,194,233,7,225,140,36,103,30,69,142,
   8,99,37,240,21,10,23,190,6,148,247,120,234,75,0,26,197,62,94,252,219,203,117,
   35,11,32,57,177,33,88,237,149,56,87,174,20,125,136,171,168,68,175,74,165,71,
   134,139,48,27,166,77,146,158,231,83,111,229,122,60,211,133,230,220,105,92,41,
   55,46,245,40,244,102,143,54,65,25,63,161,1,216,80,73,209,76,132,187,208,89,
   18,169,200,196,135,130,116,188,159,86,164,100,109,198,173,186,3,64,52,217,226,
   250,124,123,5,202,38,147,118,126,255,82,85,212,207,206,59,227,47,16,58,17,182,
   189,28,42,223,183,170,213,119,248,152,2,44,154,163,70,221,153,101,155,167,43,
   172,9,129,22,39,253,19,98,108,110,79,113,224,232,178,185,112,104,218,246,97,
   228,251,34,242,193,238,210,144,12,191,179,162,241,81,51,145,235,249,14,239,107,
   49,192,214,31,181,199,106,157,184,84,204,176,115,121,50,45,127,4,150,254,138,
   236,205,93,222,114,67,29,24,72,243,141,128,195,78,66,215,61,156,180]

/-- The doubled 512-entry permutation table `p()` of src/utils.cpp. -/
def pTable : List ℕ := permBase ++ permBase

/-- `p()[i]` (all indices used by `perlinNoise` are in range). -/
def pIdx (i : ℕ) : ℕ := pTable.getD i 0

/-- `Utils::perlinNoise`.  `int(floor x) & 255` on a two's-complement `int`
equals the nonnegative remainder `⌊x⌋ % 256`. -/
def perlinNoise (x y : ℝ) : ℝ :=
  let xi := ((⌊x⌋ : ℤ) % 256).toNat
  let yi := ((⌊y⌋ : ℤ) % 256).toNat
  let xf := x - (⌊x⌋ : ℤ)
  let yf := y - (⌊y⌋ : ℤ)
  let u := fade xf
  let v := fade yf
  let a := pIdx xi + yi
  let aa := pIdx a
  let ab := pIdx (a + 1)
  let b := pIdx (xi + 1) + yi
  let ba := pIdx b
  let bb := pIdx (b + 1)
  lerp v (lerp u (grad aa xf yf) (grad ba (xf - 1) yf))
    (lerp u (grad ab xf (yf - 1)) (grad bb (xf - 1) (yf - 1)))

end Utils

/-- The global mutable context threaded through every operation that touches
the shared random generator or the `static` spiral accumulator. -/
structure Globals where
  stream : ℕ → ℝ
  k : ℕ
  spiralAngle : ℝ

/-- `Utils::randomFloat(lo, hi)`: consumes the next unit draw of the stream. -/
def Utils.randomFloat (lo hi : ℝ) (g : Globals) : ℝ × Globals :=
  (lo + (hi - lo) * g.stream g.k, { g with k := g.k + 1 })

/-- `static_cast<int>` on a `float`: truncation toward zero. -/
def truncInt (x : ℝ) : ℤ := if 0 ≤ x then ⌊x⌋ else -⌊-x⌋

/-- `ParticleShape` of src/particle_system.cpp. -/
inductive ParticleShape
  | CIRCLE | SQUARE | TRIANGLE | STAR | HEXAGON | RING | HEART | DIAMOND
  | CROSS | SPIRAL | LIGHTNING | SMOKE_PUFF | FLAME | SPARKLE | BUBBLE | CUSTOM
deriving DecidableEq

/-- `BlendMode` of src/particle_system.cpp. -/
inductive BlendMode
  | NORMAL | ADD | MULTIPLY | SCREEN | OVERLAY | SOFT_LIGHT | COLOR_DODGE
deriving DecidableEq

/-- `EmissionPattern` of src/particle_system.cpp. -/
inductive EmissionPattern
  | POINT | CIRCLE | RING | CONE | BOX | SPHERE | LINE | SPIRAL | BURST
  | WAVE | FOUNTAIN
deriving DecidableEq

/-- `ParticleBehavior` of src/particle_system.cpp. -/
inductive ParticleBehavior
  | NONE | GRAVITY | WIND | TURBULENCE | ATTRACT | REPEL | ORBIT | SWIRL
  | FLOCK | SEEK | FLEE | WANDER | FLOW_FIELD | MAGNETIC
deriving DecidableEq

/-- `ColorRampPoint`. -/
structure ColorRampPoint where
  t : ℝ
  color : Color

/-- The nested `ForceField::Type` enum. -/
inductive FieldType
  | ATTRACT | REPEL | TURBULENCE | VORTEX
deriving DecidableEq

/-- `ForceField`. -/
structure ForceField where
  position : Vec2
  radius : ℝ
  strength : ℝ
  falloff : ℝ
  type : FieldType

/-- `ForceField::getForce`.  The exponent `std::pow(1 - d/r, falloff)` is the
real power `Real.rpow`; the `TURBULENCE` case draws a random angle. -/
def ForceField.getForce (f : ForceField) (particlePos : Vec2) (g : Globals) :
    Vec2 × Globals :=
  let diff := f.position - particlePos
  let distance := diff.length
  if f.radius < distance ∨ distance < 1/1000 then (⟨0, 0⟩, g)
  else
    let forceMagnitude := f.strength * (1 - distance / f.radius) ^ f.falloff
    match f.type with
    | .ATTRACT => (diff.normalized * forceMagnitude, g)
    | .REPEL => (diff.normalized * (-forceMagnitude), g)
    | .TURBULENCE =>
        let ag := Utils.randomFloat 0 TWO_PI g
        (Vec2.fromAngle ag.1 forceMagnitude, ag.2)
    | .VORTEX => (diff.perpendicular.normalized * forceMagnitude, g)

/-- `Particle` of src/particle_system.cpp.  `customData` is an association
list standing for the `unordered_map<string, float>`. -/
@[ext] structure Particle where
  position : Vec2
  velocity : Vec2
  acceleration : Vec2
  previousPos : Vec2
  mass : ℝ
  drag : ℝ
  bounce : ℝ
  size : ℝ
  startSize : ℝ
  endSize : ℝ
  rotation : ℝ
  angularVelocity : ℝ
  color : Color
  colorRamp : List ColorRampPoint
  shape : ParticleShape
  blendMode : BlendMode
  glowIntensity : ℝ
  distortionAmount : ℝ
  age : ℝ
  lifetime : ℝ
  fadeInTime : ℝ
  fadeOutTime : ℝ
  trail : List Vec2
  maxTrailLength : ℤ
  trailFadeRate : ℝ
  behaviors : List ParticleBehavior
  target : Vec2
  behaviorStrength : ℝ
  hasGlow : Bool
  hasDistortion : Bool
  hasShadow : Bool
  pulseRate : ℝ
  pulseAmount : ℝ
  shimmerRate : ℝ
  collides : Bool
  collisionRadius : ℝ
  customData : List (String × ℝ)

namespace Particle

/-- `Particle::reset`.  Note that `color` and `colorRamp` are the two fields
the source's `reset()` does NOT touch: they survive into the pool. -/
def reset (p : Particle) : Particle where
  position := ⟨0, 0⟩
  velocity := ⟨0, 0⟩
  acceleration := ⟨0, 0⟩
  previousPos := ⟨0, 0⟩
  mass := 1
  drag := 98/100
  bounce := 8/10
  size := 10
  startSize := 10
  endSize := 10
  rotation := 0
  angularVelocity := 0
  color := p.color
  colorRamp := p.colorRamp
  shape := .CIRCLE
  blendMode := .ADD
  glowIntensity := 0
  distortionAmount := 0
  age := 0
  lifetime := 1
  fadeInTime := 1/10
  fadeOutTime := 2/10
  trail := []
  maxTrailLength := 0
  trailFadeRate := 9/10
  behaviors := []
  target := ⟨0, 0⟩
  behaviorStrength := 1
  hasGlow := false
  hasDistortion := false
  hasShadow := false
  pulseRate := 0
  pulseAmount := 0
  shimmerRate := 0
  collides := false
  collisionRadius := 5
  customData := []

/-- The `Particle()` constructor: default member initializers followed by
`reset()`, so `color = Color()` and `colorRamp = {}`. -/
def new : Particle :=
  reset
    { position := ⟨0, 0⟩, velocity := ⟨0, 0⟩, acceleration := ⟨0, 0⟩
      previousPos := ⟨0, 0⟩, mass := 1, drag := 98/100, bounce := 8/10
      size := 10, startSize := 10, endSize := 10, rotation := 0
      angularVelocity := 0, color := Color.white, colorRamp := []
      shape := .CIRCLE, blendMode := .ADD, glowIntensity := 0
      distortionAmount := 0, age := 0, lifetime := 1, fadeInTime := 1/10
      fadeOutTime := 2/10, trail := [], maxTrailLength := 0
      trailFadeRate := 9/10, behaviors := [], target := ⟨0, 0⟩
      behaviorStrength := 1, hasGlow := false, hasDistortion := false
      hasShadow := false, pulseRate := 0, pulseAmount := 0, shimmerRate := 0
      collides := false, collisionRadius := 5, customData := [] }

/-- `Particle::applyForce`. -/
def applyForce (p : Particle) (force : Vec2) : Particle :=
  { p with acceleration := p.acceleration + force / p.mass }

/-- One arm of the `switch` in `Particle::applyBehaviors`; the state is the
particle together with the global random context. -/
def applyBehavior (dt : ℝ) (pg : Particle × Globals) (b : ParticleBehavior) :
    Particle × Globals :=
  let p := pg.1
  let g := pg.2
  match b with
  | .GRAVITY => (p.applyForce ⟨0, 98 * p.mass⟩, g)
  | .WIND =>
      let wg := Utils.randomFloat (-10) 10 g
      (p.applyForce ⟨wg.1, 0⟩, wg.2)
  | .TURBULENCE =>
      let noise := Utils.perlinNoise (p.position.x * (1/100)) (p.position.y * (1/100))
      (p.applyForce ⟨noise * 50, noise * 50⟩, g)
  | .ATTRACT =>
      if 0 < p.target.lengthSq then
        let desired := (p.target - p.position).normalized * (100 : ℝ)
        (p.applyForce ((desired - p.velocity) * p.behaviorStrength), g)
      else (p, g)
  | .REPEL =>
      if 0 < p.target.lengthSq then
        let desired := (p.position - p.target).normalized * (100 : ℝ)
        (p.applyForce ((desired - p.velocity) * p.behaviorStrength), g)
      else (p, g)
  | .ORBIT =>
      let toTarget := p.target - p.position
      let tangent := toTarget.perpendicular.normalized * (50 : ℝ)
      let p1 := p.applyForce (tangent * p.behaviorStrength)
      let dist := toTarget.length
      if 100 < dist then (p1.applyForce (toTarget.normalized * (10 : ℝ)), g)
      else if dist < 50 then (p1.applyForce (toTarget.normalized * (-10 : ℝ)), g)
      else (p1, g)
  | .SWIRL =>
      let angle := atan2 (p.position.y - p.target.y) (p.position.x - p.target.x)
        + dt * p.behaviorStrength
      let dist := (p.position - p.target).length
      ({ p with position := p.target + Vec2.fromAngle angle dist }, g)
  | .WANDER =>
      let ag := Utils.randomFloat 0 TWO_PI g
      (p.applyForce (Vec2.fromAngle ag.1 20), ag.2)
  | .FLOW_FIELD =>
      let angle := Utils.perlinNoise (p.position.x * (5/1000)) (p.position.y * (5/1000))
        * TWO_PI
      (p.applyForce (Vec2.fromAngle angle 30), g)
  | _ => (p, g)

/-- `Particle::applyBehaviors`: fold the switch over the behavior list. -/
def applyBehaviors (p : Particle) (dt : ℝ) (g : Globals) : Particle × Globals :=
  p.behaviors.foldl (applyBehavior dt) (p, g)

/-- `Particle::getCurrentSize`. -/
def getCurrentSize (p : Particle) : ℝ :=
  let t := p.age / p.lifetime
  p.startSize + (p.endSize - p.startSize) * Utils.easeInOutCubic t

/-- `Particle::getCurrentAlpha`. -/
def getCurrentAlpha (p : Particle) : ℝ :=
  let alpha : ℝ := 1
  let alpha := if p.age < p.fadeInTime ∧ 0 < p.fadeInTime then alpha * (p.age / p.fadeInTime) else alpha
  let fadeOutStart := p.lifetime - p.fadeOutTime
  let alpha := if fadeOutStart < p.age ∧ 0 < p.fadeOutTime then
    alpha * (1 - (p.age - fadeOutStart) / p.fadeOutTime) else alpha
  let alpha := if 0 < p.shimmerRate then
    alpha * (1/2 + (Real.sin (p.age * p.shimmerRate * TWO_PI) * (1/2) + 1/2) * (1/2)) else alpha
  Utils.clamp alpha 0 1

/-- The scan loop of `Particle::getCurrentColor` over adjacent keyframe
pairs; falling off the end returns `colorRamp.back()`, which is exactly the
final element this recursion bottoms out at. -/
def rampScan (t : ℝ) : ColorRampPoint → List ColorRampPoint → Color
  | p1, [] => p1.color
  | p1, p2 :: rest =>
      if p1.t ≤ t ∧ t ≤ p2.t then
        Color.lerp p1.color p2.color ((t - p1.t) / (p2.t - p1.t))
      else rampScan t p2 rest

/-- `Particle::getCurrentColor`. -/
def getCurrentColor (p : Particle) : Color :=
  match p.colorRamp with
  | [] => p.color
  | h :: rest => rampScan (p.age / p.lifetime) h rest

/-- `Particle::isAlive`. -/
def isAlive (p : Particle) : Prop := p.age < p.lifetime

instance (p : Particle) : Decidable p.isAlive := by
  unfold isAlive; infer_instance

/-- Trimming of the trail deque: `pop_front` until the length is at most
`maxTrailLength`. -/
def trimTrail (l : List Vec2) (n : ℕ) : List Vec2 := l.drop (l.length - n)

/-- `Particle::update`: advance `age`, save `previousPos`, apply behaviors,
integrate velocity (with the multiplicative drag) and position, clear the
acceleration, advance the rotation, append to the bounded trail, and
recompute the size (with the optional pulse modulation).  The sequential
field assignments of the C++ body are grouped into record updates. -/
def update (p : Particle) (dt : ℝ) (g : Globals) : Particle × Globals :=
  let pg := Particle.applyBehaviors { p with age := p.age + dt, previousPos := p.position } dt g
  let q := pg.1
  let vel := (q.velocity + q.acceleration * dt) * q.drag
  let q := { q with velocity := vel, position := q.position + vel * dt,
                    acceleration := ⟨0, 0⟩,
                    rotation := q.rotation + q.angularVelocity * dt }
  let q := if 0 < q.maxTrailLength then
      { q with trail := trimTrail (q.trail ++ [q.position]) q.maxTrailLength.toNat }
    else q
  let sz := getCurrentSize q
  let q := if 0 < q.pulseRate then
      { q with size := sz * (1 + Real.sin (q.age * q.pulseRate * TWO_PI) * q.pulseAmount) }
    else { q with size := sz }
  (q, pg.2)

end Particle

/-- An `SDL_FRect` used by the collision test. -/
structure FRect where
  x : ℝ
  y : ℝ
  w : ℝ
  h : ℝ

/-- `SDL_PointInRectFloat`: half-open point-in-rectangle test. -/
def pointInRect (p : Vec2) (r : FRect) : Prop :=
  r.x ≤ p.x ∧ p.x < r.x + r.w ∧ r.y ≤ p.y ∧ p.y < r.y + r.h

instance (p : Vec2) (r : FRect) : Decidable (pointInRect p r) := by
  unfold pointInRect; infer_instance

/-- The configuration half of the C++ `ParticleEmitter` struct: every field
that `emit` / `update` / `clear` read but never write.  Ranges are
`(first, second)` pairs. -/
structure EmitterConfig where
  maxParticles : ℕ
  position : Vec2
  rotation : ℝ
  scale : Vec2
  active : Bool
  emissionRate : ℝ
  pattern : EmissionPattern
  patternRadius : ℝ
  patternAngle : ℝ
  burstMode : Bool
  burstCount : ℤ
  burstInterval : ℝ
  lifetimeRange : ℝ × ℝ
  sizeRange : ℝ × ℝ
  speedRange : ℝ × ℝ
  angleRange : ℝ × ℝ
  angularVelRange : ℝ × ℝ
  massRange : ℝ × ℝ
  colorRamp : List ColorRampPoint
  shape : ParticleShape
  blendMode : BlendMode
  enableGlow : Bool
  glowIntensity : ℝ
  enableTrails : Bool
  trailLength : ℤ
  trailFadeRate : ℝ
  gravity : Vec2
  wind : Vec2
  turbulence : ℝ
  drag : ℝ
  forceFields : List ForceField
  behaviors : List ParticleBehavior
  targetPosition : Vec2
  enablePulse : Bool
  pulseRate : ℝ
  pulseAmount : ℝ
  enableShimmer : Bool
  shimmerRate : ℝ
  enableDistortion : Bool
  distortionAmount : ℝ
  enableCollision : Bool
  collisionRects : List FRect
  onParticleSpawn : Option (Particle → Particle)
  onParticleUpdate : Option (Particle → Particle)
  onParticleDeath : Option (Particle → Particle)

/-- The default color ramp installed by `ParticleEmitter::init()`. -/
def defaultColorRamp : List ColorRampPoint :=
  [⟨0, Color.ofInt 255 255 255 255⟩, ⟨1, Color.ofInt 255 255 255 0⟩]

/-- The C++ default member initializers of `ParticleEmitter`, with the
default color ramp set by `init()`. -/
def EmitterConfig.base : EmitterConfig where
  maxParticles := 5000
  position := ⟨0, 0⟩
  rotation := 0
  scale := ⟨1, 1⟩
  active := true
  emissionRate := 100
  pattern := .POINT
  patternRadius := 50
  patternAngle := TWO_PI
  burstMode := false
  burstCount := 100
  burstInterval := 1
  lifetimeRange := (1, 2)
  sizeRange := (4, 8)
  speedRange := (50, 150)
  angleRange := (0, TWO_PI)
  angularVelRange := (-180, 180)
  massRange := (8/10, 12/10)
  colorRamp := defaultColorRamp
  shape := .CIRCLE
  blendMode := .ADD
  enableGlow := true
  glowIntensity := 1
  enableTrails := false
  trailLength := 10
  trailFadeRate := 9/10
  gravity := ⟨0, 98⟩
  wind := ⟨0, 0⟩
  turbulence := 0
  drag := 98/100
  forceFields := []
  behaviors := []
  targetPosition := ⟨0, 0⟩
  enablePulse := false
  pulseRate := 2
  pulseAmount := 2/10
  enableShimmer := false
  shimmerRate := 10
  enableDistortion := false
  distortionAmount := 1/10
  enableCollision := false
  collisionRects := []
  onParticleSpawn := none
  onParticleUpdate := none
  onParticleDeath := none

/-- The mutable half of the C++ `ParticleEmitter` struct. -/
structure EmitterState where
  activeParticles : List Particle
  particlePool : List Particle
  emissionAccumulator : ℝ
  burstTimer : ℝ

namespace ParticleEmitter

/-- Constructor plus `ParticleEmitter::init()`: a pool of `maxParticles`
default particles, nothing active, zero accumulators. -/
def init (c : EmitterConfig) : EmitterState where
  activeParticles := []
  particlePool := List.replicate c.maxParticles Particle.new
  emissionAccumulator := 0
  burstTimer := 0

/-- `ParticleEmitter::returnToPool`: reset the particle and push it, unless
the pool already holds `maxParticles`. -/
def returnToPool (c : EmitterConfig) (pool : List Particle) (p : Particle) :
    List Particle :=
  if pool.length < c.maxParticles then p.reset :: pool else pool

/-- Apply an optional particle callback. -/
def applyCallback : Option (Particle → Particle) → Particle → Particle
  | none, p => p
  | some f, p => f p

/-- `ParticleEmitter::getEmissionPosition`.  `SPHERE`, `BURST` and `WAVE`
fall into the `default:` arm.  The truncating `std::fmod(s, 1)` on the
always-nonnegative spiral angle is `Int.fract`. -/
def getEmissionPosition (c : EmitterConfig) (g : Globals) : Vec2 × Globals :=
  match c.pattern with
  | .POINT => (c.position, g)
  | .CIRCLE =>
      let ag := Utils.randomFloat 0 TWO_PI g
      let rg := Utils.randomFloat 0 c.patternRadius ag.2
      (c.position + Vec2.fromAngle ag.1 rg.1, rg.2)
  | .RING =>
      let ag := Utils.randomFloat 0 TWO_PI g
      (c.position + Vec2.fromAngle ag.1 c.patternRadius, ag.2)
  | .CONE =>
      let ag := Utils.randomFloat (-c.patternAngle / 2) (c.patternAngle / 2) g
      let dg := Utils.randomFloat 0 c.patternRadius ag.2
      (c.position + Vec2.fromAngle (ag.1 + c.rotation) dg.1, dg.2)
  | .BOX =>
      let xg := Utils.randomFloat (-c.patternRadius) c.patternRadius g
      let yg := Utils.randomFloat (-c.patternRadius) c.patternRadius xg.2
      (c.position + Vec2.mk xg.1 yg.1, yg.2)
  | .LINE =>
      let tg := Utils.randomFloat (-1) 1 g
      let dir := Vec2.fromAngle c.rotation 1
      (c.position + dir * (tg.1 * c.patternRadius), tg.2)
  | .SPIRAL =>
      let s := g.spiralAngle + 1/2
      let g1 := { g with spiralAngle := s }
      let radius := c.patternRadius * Int.fract (s / TWO_PI)
      (c.position + Vec2.fromAngle s radius, g1)
  | .FOUNTAIN =>
      let sg := Utils.randomFloat (-2/10) (2/10) g
      (c.position + Vec2.mk (sg.1 * c.patternRadius) 0, sg.2)
  | _ => (c.position, g)

/-- `ParticleEmitter::getEmissionVelocity`. -/
def getEmissionVelocity (c : EmitterConfig) (g : Globals) : Vec2 × Globals :=
  let ag := Utils.randomFloat c.angleRange.1 c.angleRange.2 g
  let sg := Utils.randomFloat c.speedRange.1 c.speedRange.2 ag.2
  (Vec2.fromAngle ag.1 sg.1, sg.2)

/-- The per-particle initialization block in the body of
`ParticleEmitter::emit`, applied to a particle taken from the pool,
followed by the optional `onParticleSpawn` callback. -/
def spawnParticle (c : EmitterConfig) (p : Particle) (g : Globals) :
    Particle × Globals :=
  let posG := getEmissionPosition c g
  let velG := getEmissionVelocity c posG.2
  let ltG := Utils.randomFloat c.lifetimeRange.1 c.lifetimeRange.2 velG.2
  let ssG := Utils.randomFloat c.sizeRange.1 c.sizeRange.2 ltG.2
  let rotG := Utils.randomFloat 0 TWO_PI ssG.2
  let avG := Utils.randomFloat c.angularVelRange.1 c.angularVelRange.2 rotG.2
  let mG := Utils.randomFloat c.massRange.1 c.massRange.2 avG.2
  let p := { p with
    position := posG.1
    velocity := velG.1
    lifetime := ltG.1
    startSize := ssG.1
    endSize := ssG.1 * (1/10)
    size := ssG.1
    rotation := rotG.1
    angularVelocity := avG.1
    mass := mG.1
    drag := c.drag
    colorRamp := c.colorRamp
    shape := c.shape
    blendMode := c.blendMode
    hasGlow := c.enableGlow
    glowIntensity := c.glowIntensity
    hasDistortion := c.enableDistortion
    distortionAmount := c.distortionAmount
    maxTrailLength := if c.enableTrails then c.trailLength else 0
    trailFadeRate := c.trailFadeRate
    behaviors := c.behaviors
    target := c.targetPosition
    pulseRate := if c.enablePulse then c.pulseRate else 0
    pulseAmount := c.pulseAmount
    shimmerRate := if c.enableShimmer then c.shimmerRate else 0
    collides := c.enableCollision
    collisionRadius := ssG.1 / 2 }
  (applyCallback c.onParticleSpawn p, mG.2)

/-- The loop of `ParticleEmitter::emit`: up to `fuel` iterations, stopping
when the active set reaches `maxParticles` or the pool is empty. -/
def emitLoop (c : EmitterConfig) (s : EmitterState) (g : Globals) :
    ℕ → EmitterState × Globals
  | 0 => (s, g)
  | fuel + 1 =>
      if s.activeParticles.length < c.maxParticles then
        match s.particlePool with
        | [] => (s, g)
        | q :: rest =>
            let pg := spawnParticle c q g
            emitLoop c
              { s with particlePool := rest
                       activeParticles := s.activeParticles ++ [pg.1] }
              pg.2 fuel
      else (s, g)

/-- `ParticleEmitter::emit(count)` (a negative `int` count runs zero
iterations). -/
def emit (c : EmitterConfig) (s : EmitterState) (count : ℤ) (g : Globals) :
    EmitterState × Globals :=
  emitLoop c s g count.toNat

/-- `ParticleEmitter::burst`. -/
def burst (c : EmitterConfig) (s : EmitterState) (g : Globals) :
    EmitterState × Globals :=
  emit c s c.burstCount g

/-- The collision block of `ParticleEmitter::update`: for each collision
rectangle containing the particle, a vertical bounce. -/
def collideRect (p : Particle) (r : FRect) : Particle :=
  if pointInRect p.position r then
    if p.position.y < r.y + r.h / 2 then
      { p with velocity := ⟨p.velocity.x, p.velocity.y * (-p.bounce)⟩
               position := ⟨p.position.x, r.y - p.collisionRadius⟩ }
    else
      { p with velocity := ⟨p.velocity.x, p.velocity.y * (-p.bounce)⟩
               position := ⟨p.position.x, r.y + r.h + p.collisionRadius⟩ }
  else p

/-- The per-particle body of the update loop in `ParticleEmitter::update`:
force fields, global gravity and wind, optional turbulence noise, the
particle's own `update`, the `onParticleUpdate` callback, and collision. -/
def processParticle (c : EmitterConfig) (dt : ℝ) (p : Particle) (g : Globals) :
    Particle × Globals :=
  let pg := c.forceFields.foldl (fun pg f =>
    (pg.1.applyForce (ForceField.getForce f pg.1.position pg.2).1,
     (ForceField.getForce f pg.1.position pg.2).2)) (p, g)
  let p := pg.1.applyForce (c.gravity * pg.1.mass)
  let p := p.applyForce c.wind
  let p := if 0 < c.turbulence then
      let noise := Utils.perlinNoise (p.position.x * (1/100) + p.age)
        (p.position.y * (1/100) + p.age)
      p.applyForce ⟨noise * c.turbulence, noise * c.turbulence⟩
    else p
  let ug := p.update dt pg.2
  let p := applyCallback c.onParticleUpdate ug.1
  let p := if c.enableCollision ∧ p.collides then
      c.collisionRects.foldl collideRect p
    else p
  (p, ug.2)

/-- The erase-or-advance sweep over `activeParticles` in
`ParticleEmitter::update`: each particle is processed in order; dead ones
go through `onParticleDeath` and `returnToPool`, survivors stay in order. -/
def stepActives (c : EmitterConfig) (dt : ℝ) :
    List Particle → List Particle → Globals →
    List Particle × List Particle × Globals
  | [], pool, g => ([], pool, g)
  | p :: rest, pool, g =>
      let pg := processParticle c dt p g
      if pg.1.isAlive then
        let r := stepActives c dt rest pool pg.2
        (pg.1 :: r.1, r.2.1, r.2.2)
      else
        let pd := applyCallback c.onParticleDeath pg.1
        stepActives c dt rest (returnToPool c pool pd) pg.2

/-- The burst-timer block at the top of `ParticleEmitter::update`. -/
def updateBurstPhase (c : EmitterConfig) (dt : ℝ) (s : EmitterState)
    (g : Globals) : EmitterState × Globals :=
  if c.burstMode ∧ c.active then
    let t := s.burstTimer + dt
    if c.burstInterval ≤ t then burst c { s with burstTimer := 0 } g
    else ({ s with burstTimer := t }, g)
  else (s, g)

/-- The continuous-emission block of `ParticleEmitter::update`: accumulate
`dt * emissionRate`, emit the integer part, keep the fraction. -/
def updateEmissionPhase (c : EmitterConfig) (dt : ℝ) (s : EmitterState)
    (g : Globals) : EmitterState × Globals :=
  if ¬c.burstMode ∧ c.active then
    let acc := s.emissionAccumulator + dt * c.emissionRate
    let numToEmit : ℤ := truncInt acc
    emit c { s with emissionAccumulator := acc - numToEmit } numToEmit g
  else (s, g)

/-- `ParticleEmitter::update(dt)`: the burst block, the continuous-emission
block, then the sweep over the active particles. -/
def update (c : EmitterConfig) (dt : ℝ) (s : EmitterState) (g : Globals) :
    EmitterState × Globals :=
  let sg := updateBurstPhase c dt s g
  let sg2 := updateEmissionPhase c dt sg.1 sg.2
  let r := stepActives c dt sg2.1.activeParticles sg2.1.particlePool sg2.2
  ({ sg2.1 with activeParticles := r.1, particlePool := r.2.1 }, r.2.2)

/-- `ParticleEmitter::clear`. -/
def clear (c : EmitterConfig) (s : EmitterState) : EmitterState :=
  { s with
    activeParticles := []
    particlePool := s.activeParticles.foldl (returnToPool c) s.particlePool }

/-- `ParticleEmitter::getParticleCount`. -/
def getParticleCount (s : EmitterState) : ℕ := s.activeParticles.length

end ParticleEmitter

/-- One host-visible operation on an emitter (the surface named by the
pool-conservation property). -/
inductive EmitterOp
  | emit (count : ℤ)
  | burst
  | update (dt : ℝ)
  | clear

/-- Run a sequence of operations left to right. -/
def runOps (c : EmitterConfig) : List EmitterOp → EmitterState → Globals →
    EmitterState × Globals
  | [], s, g => (s, g)
  | op :: ops, s, g =>
      let sg : EmitterState × Globals :=
        match op with
        | .emit n => ParticleEmitter.emit c s n g
        | .burst => ParticleEmitter.burst c s g
        | .update dt => ParticleEmitter.update c dt s g
        | .clear => (ParticleEmitter.clear c s, g)
      runOps c ops sg.1 sg.2

/-- Iterate `update` with a fixed timestep. -/
def updateIter (c : EmitterConfig) (dt : ℝ) : ℕ → EmitterState → Globals →
    EmitterState × Globals
  | 0, s, g => (s, g)
  | n + 1, s, g =>
      let sg := ParticleEmitter.update c dt s g
      updateIter c dt n sg.1 sg.2

/-- Iterate `Particle.update` with a fixed timestep. -/
def Particle.updateIter (dt : ℝ) : ℕ → Particle → Globals → Particle × Globals
  | 0, p, g => (p, g)
  | n + 1, p, g =>
      let pg := Particle.update p dt g
      Particle.updateIter dt n pg.1 pg.2

/-! ## Basic facts about the vector primitives -/

instance : Zero Vec2 := ⟨⟨0, 0⟩⟩

@[simp] theorem Vec2.zero_x : (0 : Vec2).x = 0 := rfl
@[simp] theorem Vec2.zero_y : (0 : Vec2).y = 0 := rfl

theorem Vec2.zero_def : (0 : Vec2) = ⟨0, 0⟩ := rfl

theorem Vec2.sq_sum_nonneg (v : Vec2) : 0 ≤ v.x * v.x + v.y * v.y :=
  add_nonneg (mul_self_nonneg _) (mul_self_nonneg _)

theorem Vec2.length_nonneg (v : Vec2) : 0 ≤ v.length := Real.sqrt_nonneg _

theorem Vec2.normalized_def (v : Vec2) :
    v.normalized = if 0 < v.length then ⟨v.x / v.length, v.y / v.length⟩
      else ⟨0, 0⟩ := rfl

theorem Vec2.length_smul (v : Vec2) (s : ℝ) : (v * s).length = v.length * |s| := by
  unfold Vec2.length
  rw [show (v * s).x * (v * s).x + (v * s).y * (v * s).y
      = (v.x * v.x + v.y * v.y) * (s * s) by simp; ring]
  rw [Real.sqrt_mul v.sq_sum_nonneg, Real.sqrt_mul_self_eq_abs]

theorem Vec2.length_fromAngle (a m : ℝ) : (Vec2.fromAngle a m).length = |m| := by
  unfold Vec2.length
  rw [show (fromAngle a m).x * (fromAngle a m).x + (fromAngle a m).y * (fromAngle a m).y
      = m * m by
    simp only [fromAngle_x, fromAngle_y]
    linear_combination (m * m) * Real.sin_sq_add_cos_sq a]
  exact Real.sqrt_mul_self_eq_abs m

theorem Vec2.mul_self_length (v : Vec2) : v.length * v.length = v.x * v.x + v.y * v.y :=
  Real.mul_self_sqrt v.sq_sum_nonneg

theorem Vec2.length_perpendicular (v : Vec2) : v.perpendicular.length = v.length := by
  unfold Vec2.length Vec2.perpendicular
  congr 1
  ring

theorem Vec2.length_normalized (v : Vec2) (h : 0 < v.length) :
    v.normalized.length = 1 := by
  have hx : v.x * v.x + v.y * v.y = v.length * v.length := (v.mul_self_length).symm
  rw [Vec2.normalized_def, if_pos h]
  have hlen : Vec2.length ⟨v.x / v.length, v.y / v.length⟩
      = Real.sqrt ((v.x * v.x + v.y * v.y) / (v.length * v.length)) := by
    unfold Vec2.length
    congr 1
    ring
  rw [hlen, hx, div_self (ne_of_gt (mul_pos h h)), Real.sqrt_one]

theorem Vec2.fromAngle_atan2 (v : Vec2) :
    Vec2.fromAngle (atan2 v.y v.x) v.length = v := by
  set z : ℂ := ⟨v.x, v.y⟩ with hz
  have habs : Complex.abs z = v.length := by
    rw [Complex.abs_apply, Complex.normSq_apply]
    rfl
  by_cases h0 : z = 0
  · have hx : v.x = 0 := by simpa using congrArg Complex.re h0
    have hy : v.y = 0 := by simpa using congrArg Complex.im h0
    have hlen : v.length = 0 := by
      unfold Vec2.length
      rw [hx, hy]
      simp
    ext
    · simp [Vec2.fromAngle, hlen, hx]
    · simp [Vec2.fromAngle, hlen, hy]
  · have hcos := Complex.cos_arg h0
    have hsin := Complex.sin_arg z
    have habs0 : Complex.abs z ≠ 0 := Complex.abs.ne_zero h0
    unfold atan2
    rw [← hz]
    ext
    · show Real.cos z.arg * v.length = v.x
      rw [hcos, ← habs, div_mul_cancel₀ _ habs0]
    · show Real.sin z.arg * v.length = v.y
      rw [hsin, ← habs, div_mul_cancel₀ _ habs0]

/-- C8: `normalized()` applied to the zero vector, and to any vector of
length zero, returns the zero vector (no division happens, so no NaN can
arise in the real-valued model). -/
theorem C8_normalized_zero :
    (Vec2.mk 0 0).normalized = Vec2.mk 0 0 ∧
    ∀ v : Vec2, v.length = 0 → v.normalized = Vec2.mk 0 0 := by
  constructor
  · rw [Vec2.normalized_def]
    unfold Vec2.length
    norm_num
  · intro v h
    rw [Vec2.normalized_def, h]
    norm_num

/-- Witness for C8 at the concrete zero vector. -/
theorem C8_normalized_zero_witness : (Vec2.mk 0 0).normalized = Vec2.mk 0 0 :=
  C8_normalized_zero.2 ⟨0, 0⟩ (by unfold Vec2.length; norm_num)

/-- The cubic ease-in-out curve maps `[0, 1]` into `[0, 1]`. -/
theorem Utils.easeInOutCubic_mem (t : ℝ) (h0 : 0 ≤ t) (h1 : t ≤ 1) :
    0 ≤ Utils.easeInOutCubic t ∧ Utils.easeInOutCubic t ≤ 1 := by
  unfold Utils.easeInOutCubic
  split
  · constructor
    · nlinarith [mul_nonneg (mul_nonneg h0 h0) h0]
    · nlinarith [mul_nonneg (show (0:ℝ) ≤ 1/2 - t by linarith)
        (show (0:ℝ) ≤ 1/4 + t/2 + t*t by nlinarith [sq_nonneg t])]
  · constructor
    · nlinarith [mul_nonneg (show (0:ℝ) ≤ t - 1/2 by linarith)
        (show (0:ℝ) ≤ (t-1)*(t-1) - (t-1)/2 + 1/4 by nlinarith [sq_nonneg (t - 5/4)])]
    · nlinarith [mul_nonneg (mul_nonneg (show (0:ℝ) ≤ 1 - t by linarith)
        (show (0:ℝ) ≤ 1 - t by linarith)) (show (0:ℝ) ≤ 1 - t by linarith)]

/-- C10: for `lifetime > 0` and `0 ≤ age ≤ lifetime`, `getCurrentSize()`
lies between `min startSize endSize` and `max startSize endSize`, because
the cubic ease-in-out maps `[0,1]` into `[0,1]`. -/
theorem C10_size_between (p : Particle) (hl : 0 < p.lifetime)
    (h0 : 0 ≤ p.age) (h1 : p.age ≤ p.lifetime) :
    min p.startSize p.endSize ≤ p.getCurrentSize ∧
    p.getCurrentSize ≤ max p.startSize p.endSize := by
  have ht0 : 0 ≤ p.age / p.lifetime := div_nonneg h0 (le_of_lt hl)
  have ht1 : p.age / p.lifetime ≤ 1 := (div_le_one hl).mpr h1
  obtain ⟨he0, he1⟩ := Utils.easeInOutCubic_mem _ ht0 ht1
  unfold Particle.getCurrentSize
  rcases le_total p.startSize p.endSize with hse | hse
  · rw [min_eq_left hse, max_eq_right hse]
    constructor <;> nlinarith
  · rw [min_eq_right hse, max_eq_left hse]
    constructor <;> nlinarith

/-- Witness for C10 at the freshly constructed particle. -/
theorem C10_size_between_witness :
    min Particle.new.startSize Particle.new.endSize ≤ Particle.new.getCurrentSize ∧
    Particle.new.getCurrentSize ≤ max Particle.new.startSize Particle.new.endSize :=
  C10_size_between Particle.new
    (by norm_num [Particle.new, Particle.reset])
    (by norm_num [Particle.new, Particle.reset])
    (by norm_num [Particle.new, Particle.reset])

/-! ## Color ramp endpoints (C2) -/

/-- The keyframe times of a ramp are strictly increasing. -/
def rampSorted (l : List ColorRampPoint) : Prop :=
  List.Chain' (fun a b => a.t < b.t) l

/-- Scanning at `t = 0` returns the head color whenever the head keyframe
sits at time `0` and the times are strictly increasing. -/
theorem rampScan_at_zero (h : ColorRampPoint) (rest : List ColorRampPoint)
    (hh : h.t = 0) (hsort : rampSorted (h :: rest)) :
    Particle.rampScan 0 h rest = h.color := by
  cases rest with
  | nil => rfl
  | cons p2 r2 =>
      have hlt : h.t < p2.t := (List.chain'_cons.mp hsort).1
      have hcond : h.t ≤ 0 ∧ (0:ℝ) ≤ p2.t := by
        constructor
        · rw [hh]
        · linarith [hh ▸ hlt]
      unfold Particle.rampScan
      rw [if_pos hcond, hh]
      simp

/-- Scanning at any `t ≥ 1` returns the last color whenever the times are
strictly increasing and all of them are at most `1`. -/
theorem rampScan_ge_one (t : ℝ) (ht : 1 ≤ t) :
    ∀ (h : ColorRampPoint) (rest : List ColorRampPoint),
    rampSorted (h :: rest) → (∀ q ∈ h :: rest, q.t ≤ 1) →
    Particle.rampScan t h rest = ((h :: rest).getLast (by simp)).color := by
  intro h rest
  induction rest generalizing h with
  | nil => intro _ _; rfl
  | cons p2 r2 ih =>
      intro hsort hle
      have hlt : h.t < p2.t := (List.chain'_cons.mp hsort).1
      have hsort2 : rampSorted (p2 :: r2) := (List.chain'_cons.mp hsort).2
      have hle2 : ∀ q ∈ p2 :: r2, q.t ≤ 1 := fun q hq => hle q (List.mem_cons_of_mem _ hq)
      unfold Particle.rampScan
      by_cases hcond : h.t ≤ t ∧ t ≤ p2.t
      · have hp2 : p2.t = 1 := le_antisymm (hle p2 (by simp)) (le_trans ht hcond.2)
        have htt : t = 1 := le_antisymm (hp2 ▸ hcond.2) ht
        have hr2 : r2 = [] := by
          cases r2 with
          | nil => rfl
          | cons q r3 =>
              exfalso
              have hq : p2.t < q.t := (List.chain'_cons.mp hsort2).1
              have hq1 : q.t ≤ 1 := hle q (by simp)
              linarith
        subst hr2
        rw [if_pos hcond]
        have hden : (1:ℝ) - h.t ≠ 0 := by
          rw [hp2] at hlt
          exact ne_of_gt (by linarith)
        rw [htt, hp2, div_self hden]
        simp [List.getLast]
      · rw [if_neg hcond, ih p2 hsort2 hle2]
        cases r2 <;> simp [List.getLast]

/-- The concrete ramp `[(0.5, white), (1, black)]`: non-empty and sorted by
ascending `t`, but its first keyframe does not sit at `t = 0`. -/
def rampLate : List ColorRampPoint :=
  [⟨1/2, Color.white⟩, ⟨1, ⟨0, 0, 0, 1⟩⟩]

/-- A particle at `age = 0` carrying `rampLate`. -/
def particleLate : Particle :=
  { Particle.new with colorRamp := rampLate, age := 0, lifetime := 1 }

/-- Counterexample to C2 as stated: `particleLate` has a non-empty color
ramp sorted by ascending `t`, its age is `0`, yet `getCurrentColor()`
returns the last keyframe's color (black), not the first keyframe's color
(white): the scan loop never matches because `age/lifetime = 0` lies before
the first keyframe, and the fallback returns `colorRamp.back()`. -/
theorem C2_counterexample :
    particleLate.getCurrentColor = Color.mk 0 0 0 1 ∧
    Color.mk 0 0 0 1 ≠ Color.white := by
  constructor
  · show Particle.getCurrentColor particleLate = _
    unfold Particle.getCurrentColor particleLate rampLate
    simp only
    unfold Particle.rampScan
    norm_num
    rfl
  · intro h
    have := congrArg Color.r h
    simp [Color.white] at this

/-- C2 (amended): for a particle with a non-empty `colorRamp` (written as
`h :: rest`) strictly sorted by ascending `t` and positive `lifetime`: if
the first keyframe sits at `t = 0`, then `getCurrentColor()` at `age = 0`
is the first keyframe's color; and if every keyframe time is at most `1`,
then `getCurrentColor()` at any `age ≥ lifetime` is the last keyframe's
color. -/
theorem C2_color_ramp_endpoints (p : Particle) (h : ColorRampPoint)
    (rest : List ColorRampPoint) (hcons : p.colorRamp = h :: rest)
    (hsort : rampSorted p.colorRamp) (hl : 0 < p.lifetime) :
    (h.t = 0 → p.age = 0 → p.getCurrentColor = h.color) ∧
    ((∀ q ∈ p.colorRamp, q.t ≤ 1) → p.lifetime ≤ p.age →
      p.getCurrentColor = ((h :: rest).getLast (by simp)).color) := by
  rw [hcons] at hsort
  have hgc : p.getCurrentColor = Particle.rampScan (p.age / p.lifetime) h rest := by
    unfold Particle.getCurrentColor
    rw [hcons]
  constructor
  · intro hh ha
    rw [hgc, ha, zero_div]
    exact rampScan_at_zero h rest hh hsort
  · intro hle ha
    rw [hcons] at hle
    have ht : 1 ≤ p.age / p.lifetime := (one_le_div hl).mpr ha
    rw [hgc]
    exact rampScan_ge_one _ ht h rest hsort hle

/-- The well-formed two-point ramp `[(0, white), (1, black)]`. -/
def rampFull : List ColorRampPoint :=
  [⟨0, Color.white⟩, ⟨1, ⟨0, 0, 0, 1⟩⟩]

/-- A particle carrying `rampFull` at the start of its life. -/
def particleEarly : Particle :=
  { Particle.new with colorRamp := rampFull, age := 0, lifetime := 1 }

/-- A particle carrying `rampFull` past the end of its life. -/
def particlePast : Particle :=
  { Particle.new with colorRamp := rampFull, age := 2, lifetime := 1 }

/-- Witness for the amended C2 at both endpoints of a concrete ramp. -/
theorem C2_color_ramp_endpoints_witness :
    particleEarly.getCurrentColor = Color.white ∧
    particlePast.getCurrentColor = Color.mk 0 0 0 1 := by
  have hsortE : rampSorted particleEarly.colorRamp := by
    show rampSorted rampFull
    unfold rampSorted rampFull
    simp [List.chain'_cons]
  have hsortP : rampSorted particlePast.colorRamp := by
    show rampSorted rampFull
    unfold rampSorted rampFull
    simp [List.chain'_cons]
  constructor
  · exact (C2_color_ramp_endpoints particleEarly ⟨0, Color.white⟩ [⟨1, ⟨0, 0, 0, 1⟩⟩]
      rfl hsortE (by norm_num [particleEarly])).1 rfl rfl
  · refine (C2_color_ramp_endpoints particlePast ⟨0, Color.white⟩ [⟨1, ⟨0, 0, 0, 1⟩⟩]
      rfl hsortP (by norm_num [particlePast])).2 ?_ (by norm_num [particlePast])
    intro q hq
    show q.t ≤ 1
    have : q = (⟨0, Color.white⟩ : ColorRampPoint) ∨ q = (⟨1, ⟨0, 0, 0, 1⟩⟩ : ColorRampPoint) := by
      simpa [particlePast, rampFull] using hq
    rcases this with h | h <;> norm_num [h]

/-! ## The force-field contract (C5) -/

/-- C5: outside the radius or within `0.001` of the field's own position the
force is the zero vector; otherwise its norm is
`strength * (1 - dist/radius) ^ falloff` (for nonnegative `strength`), and
it is a nonnegative multiple of the offset toward the center for `ATTRACT`,
a nonpositive multiple of it for `REPEL`, and orthogonal to it for
`VORTEX`. -/
theorem C5_getForce_contract (f : ForceField) (p : Vec2) (g : Globals)
    (hs : 0 ≤ f.strength) :
    (f.radius < (f.position - p).length ∨ (f.position - p).length < 1/1000 →
      (f.getForce p g).1 = ⟨0, 0⟩) ∧
    (¬(f.radius < (f.position - p).length ∨ (f.position - p).length < 1/1000) →
      (f.getForce p g).1.length
          = f.strength * (1 - (f.position - p).length / f.radius) ^ f.falloff ∧
      (f.type = .ATTRACT →
        ∃ c : ℝ, 0 ≤ c ∧ (f.getForce p g).1 = (f.position - p) * c) ∧
      (f.type = .REPEL →
        ∃ c : ℝ, c ≤ 0 ∧ (f.getForce p g).1 = (f.position - p) * c) ∧
      (f.type = .VORTEX → (f.getForce p g).1.dot (f.position - p) = 0)) := by
  set diff := f.position - p with hdiff
  constructor
  · intro hcond
    unfold ForceField.getForce
    rw [if_pos hcond]
  · intro hcond
    push_neg at hcond
    obtain ⟨hrad, heps⟩ := hcond
    have hpos : 0 < diff.length := lt_of_lt_of_le (by norm_num) heps
    have hrad0 : 0 < f.radius := lt_of_lt_of_le hpos hrad
    have hbase : 0 ≤ 1 - diff.length / f.radius := by
      have : diff.length / f.radius ≤ 1 := (div_le_one hrad0).mpr hrad
      linarith
    have hmag : 0 ≤ f.strength * (1 - diff.length / f.radius) ^ f.falloff :=
      mul_nonneg hs (Real.rpow_nonneg hbase _)
    have hiff : ¬(f.radius < diff.length ∨ diff.length < 1/1000) := by
      push_neg
      exact ⟨hrad, heps⟩
    have hforce : (f.getForce p g).1 =
        (match f.type with
         | .ATTRACT => diff.normalized *
             (f.strength * (1 - diff.length / f.radius) ^ f.falloff)
         | .REPEL => diff.normalized *
             (-(f.strength * (1 - diff.length / f.radius) ^ f.falloff))
         | .TURBULENCE => Vec2.fromAngle
             (0 + (TWO_PI - 0) * g.stream g.k)
             (f.strength * (1 - diff.length / f.radius) ^ f.falloff)
         | .VORTEX => diff.perpendicular.normalized *
             (f.strength * (1 - diff.length / f.radius) ^ f.falloff)) := by
      unfold ForceField.getForce
      rw [if_neg hiff]
      cases f.type <;> rfl
    set m := f.strength * (1 - diff.length / f.radius) ^ f.falloff with hm
    refine ⟨?_, ?_, ?_, ?_⟩
    · rw [hforce]
      cases htype : f.type
      · simp only
        rw [Vec2.length_smul, Vec2.length_normalized _ hpos, abs_of_nonneg hmag, one_mul]
      · simp only
        rw [Vec2.length_smul, Vec2.length_normalized _ hpos, abs_neg,
          abs_of_nonneg hmag, one_mul]
      · simp only
        rw [Vec2.length_fromAngle, abs_of_nonneg hmag]
      · simp only
        have hperp : 0 < diff.perpendicular.length := by
          rw [Vec2.length_perpendicular]
          exact hpos
        rw [Vec2.length_smul, Vec2.length_normalized _ hperp, abs_of_nonneg hmag, one_mul]
    · intro htype
      rw [hforce, htype]
      refine ⟨m / diff.length, div_nonneg hmag (Vec2.length_nonneg _), ?_⟩
      rw [Vec2.normalized_def, if_pos hpos]
      ext <;> simp <;> ring
    · intro htype
      rw [hforce, htype]
      refine ⟨-(m / diff.length), by
        have := div_nonneg hmag (Vec2.length_nonneg diff)
        linarith, ?_⟩
      rw [Vec2.normalized_def, if_pos hpos]
      ext <;> simp <;> ring
    · intro htype
      rw [hforce, htype]
      have hperp : 0 < diff.perpendicular.length := by
        rw [Vec2.length_perpendicular]
        exact hpos
      show (diff.perpendicular.normalized * m).dot diff = 0
      rw [Vec2.normalized_def, if_pos hperp]
      unfold Vec2.dot Vec2.perpendicular
      simp only [Vec2.smul_x, Vec2.smul_y]
      ring

/-- A concrete attracting field for the C5 witness. -/
def fieldW : ForceField := ⟨⟨0, 0⟩, 10, 1, 2, .ATTRACT⟩

/-- A concrete globals record: the all-zero draw stream. -/
def gZero : Globals := ⟨fun _ => 0, 0, 0⟩

/-- Witness for C5: a query outside the radius yields the zero vector, and a
query at distance 5 yields a force of the contracted magnitude. -/
theorem C5_getForce_contract_witness :
    (fieldW.getForce ⟨20, 0⟩ gZero).1 = ⟨0, 0⟩ ∧
    (fieldW.getForce ⟨5, 0⟩ gZero).1.length
      = fieldW.strength * (1 - (fieldW.position - ⟨5, 0⟩).length / fieldW.radius)
          ^ fieldW.falloff := by
  have hlen20 : (fieldW.position - ⟨20, 0⟩).length = 20 := by
    show Vec2.length _ = 20
    unfold Vec2.length fieldW
    simp only [Vec2.sub_x, Vec2.sub_y]
    rw [show ((⟨⟨0,0⟩,10,1,2,.ATTRACT⟩ : ForceField).position.x - 20)
        * ((⟨⟨0,0⟩,10,1,2,.ATTRACT⟩ : ForceField).position.x - 20)
        + ((⟨⟨0,0⟩,10,1,2,.ATTRACT⟩ : ForceField).position.y - 0)
        * ((⟨⟨0,0⟩,10,1,2,.ATTRACT⟩ : ForceField).position.y - 0) = 20 ^ 2 by norm_num]
    exact Real.sqrt_sq (by norm_num)
  have hlen5 : (fieldW.position - ⟨5, 0⟩).length = 5 := by
    show Vec2.length _ = 5
    unfold Vec2.length fieldW
    simp only [Vec2.sub_x, Vec2.sub_y]
    rw [show ((⟨⟨0,0⟩,10,1,2,.ATTRACT⟩ : ForceField).position.x - 5)
        * ((⟨⟨0,0⟩,10,1,2,.ATTRACT⟩ : ForceField).position.x - 5)
        + ((⟨⟨0,0⟩,10,1,2,.ATTRACT⟩ : ForceField).position.y - 0)
        * ((⟨⟨0,0⟩,10,1,2,.ATTRACT⟩ : ForceField).position.y - 0) = 5 ^ 2 by norm_num]
    exact Real.sqrt_sq (by norm_num)
  constructor
  · exact (C5_getForce_contract fieldW ⟨20, 0⟩ gZero (by norm_num [fieldW])).1
      (by rw [hlen20]; left; norm_num [fieldW])
  · exact ((C5_getForce_contract fieldW ⟨5, 0⟩ gZero (by norm_num [fieldW])).2
      (by rw [hlen5]; push_neg; constructor <;> norm_num [fieldW])).1

/-! ## What the behavior switch can and cannot touch (C9, C7) -/

/-- A single behavior step never touches the listed bookkeeping fields:
every arm of the switch either accumulates into `acceleration` via
`applyForce` or (for `SWIRL`) overwrites `position`. -/
theorem Particle.applyBehavior_preserves (dt : ℝ) (pg : Particle × Globals)
    (b : ParticleBehavior) :
    (Particle.applyBehavior dt pg b).1.velocity = pg.1.velocity ∧
    (Particle.applyBehavior dt pg b).1.age = pg.1.age ∧
    (Particle.applyBehavior dt pg b).1.lifetime = pg.1.lifetime ∧
    (Particle.applyBehavior dt pg b).1.rotation = pg.1.rotation ∧
    (Particle.applyBehavior dt pg b).1.angularVelocity = pg.1.angularVelocity ∧
    (Particle.applyBehavior dt pg b).1.trail = pg.1.trail ∧
    (Particle.applyBehavior dt pg b).1.maxTrailLength = pg.1.maxTrailLength ∧
    (Particle.applyBehavior dt pg b).1.drag = pg.1.drag := by
  cases b <;>
    simp only [Particle.applyBehavior, Particle.applyForce] <;>
    (try split_ifs) <;>
    simp

/-- Folding the behavior switch over a list preserves the same fields. -/
theorem Particle.foldl_applyBehavior_preserves (dt : ℝ)
    (l : List ParticleBehavior) :
    ∀ pg : Particle × Globals,
    (l.foldl (Particle.applyBehavior dt) pg).1.velocity = pg.1.velocity ∧
    (l.foldl (Particle.applyBehavior dt) pg).1.age = pg.1.age ∧
    (l.foldl (Particle.applyBehavior dt) pg).1.lifetime = pg.1.lifetime ∧
    (l.foldl (Particle.applyBehavior dt) pg).1.rotation = pg.1.rotation ∧
    (l.foldl (Particle.applyBehavior dt) pg).1.angularVelocity = pg.1.angularVelocity ∧
    (l.foldl (Particle.applyBehavior dt) pg).1.trail = pg.1.trail ∧
    (l.foldl (Particle.applyBehavior dt) pg).1.maxTrailLength = pg.1.maxTrailLength ∧
    (l.foldl (Particle.applyBehavior dt) pg).1.drag = pg.1.drag := by
  induction l with
  | nil => intro pg; simp
  | cons b l ih =>
      intro pg
      obtain ⟨h1, h2, h3, h4, h5, h6, h7, h8⟩ := Particle.applyBehavior_preserves dt pg b
      obtain ⟨g1, g2, g3, g4, g5, g6, g7, g8⟩ := ih (Particle.applyBehavior dt pg b)
      simp only [List.foldl_cons]
      exact ⟨g1.trans h1, g2.trans h2, g3.trans h3, g4.trans h4,
        g5.trans h5, g6.trans h6, g7.trans h7, g8.trans h8⟩

/-- `applyBehaviors` preserves the same fields. -/
theorem Particle.applyBehaviors_preserves (p : Particle) (dt : ℝ) (g : Globals) :
    (p.applyBehaviors dt g).1.velocity = p.velocity ∧
    (p.applyBehaviors dt g).1.age = p.age ∧
    (p.applyBehaviors dt g).1.lifetime = p.lifetime ∧
    (p.applyBehaviors dt g).1.rotation = p.rotation ∧
    (p.applyBehaviors dt g).1.angularVelocity = p.angularVelocity ∧
    (p.applyBehaviors dt g).1.trail = p.trail ∧
    (p.applyBehaviors dt g).1.maxTrailLength = p.maxTrailLength ∧
    (p.applyBehaviors dt g).1.drag = p.drag :=
  Particle.foldl_applyBehavior_preserves dt p.behaviors (p, g)

/-- With `dt = 0` a behavior step also leaves `position` unchanged: the only
arm that writes `position` is `SWIRL`, and advancing the polar angle by
`0 * behaviorStrength` reconstructs the original point exactly. -/
theorem Particle.applyBehavior_position_zero (pg : Particle × Globals)
    (b : ParticleBehavior) :
    (Particle.applyBehavior 0 pg b).1.position = pg.1.position := by
  cases b <;>
    simp only [Particle.applyBehavior, Particle.applyForce] <;>
    (try split_ifs) <;>
    simp
  case SWIRL =>
    rw [show atan2 (pg.1.position.y - pg.1.target.y) (pg.1.position.x - pg.1.target.x)
        = atan2 (pg.1.position - pg.1.target).y (pg.1.position - pg.1.target).x from rfl]
    rw [Vec2.fromAngle_atan2 (pg.1.position - pg.1.target)]
    ext <;> simp

/-- Folding the switch at `dt = 0` leaves `position` unchanged. -/
theorem Particle.foldl_applyBehavior_position_zero (l : List ParticleBehavior) :
    ∀ pg : Particle × Globals,
    (l.foldl (Particle.applyBehavior 0) pg).1.position = pg.1.position := by
  induction l with
  | nil => intro pg; rfl
  | cons b l ih =>
      intro pg
      simp only [List.foldl_cons]
      exact (ih (Particle.applyBehavior 0 pg b)).trans
        (Particle.applyBehavior_position_zero pg b)

@[simp] theorem Vec2.smul_zero_right (v : Vec2) : v * (0:ℝ) = (⟨0, 0⟩ : Vec2) := by
  ext <;> simp

@[simp] theorem Vec2.add_zero_right (v : Vec2) : v + (⟨0, 0⟩ : Vec2) = v := by
  ext <;> simp

/-- Trimming after appending keeps the appended element last whenever the
cap is positive. -/
theorem Particle.trimTrail_getLast (l : List Vec2) (a : Vec2) (n : ℕ) (hn : 0 < n) :
    (Particle.trimTrail (l ++ [a]) n).getLast? = some a := by
  unfold Particle.trimTrail
  have hle : (l ++ [a]).length - n ≤ l.length := by
    simp only [List.length_append, List.length_singleton]
    omega
  rw [List.drop_append_of_le_length hle, List.getLast?_concat]

/-- C9: `Particle::update(0)` is not the identity: it leaves `age`,
`position` (even under `SWIRL`, whose polar reconstruction is exact) and
`rotation` unchanged, yet still multiplies `velocity` by the drag factor
and, when `maxTrailLength > 0`, appends the current position to the trail. -/
theorem C9_update_zero_dt (p : Particle) (g : Globals) :
    (p.update 0 g).1.age = p.age ∧
    (p.update 0 g).1.position = p.position ∧
    (p.update 0 g).1.rotation = p.rotation ∧
    (p.update 0 g).1.velocity = p.velocity * p.drag ∧
    (0 < p.maxTrailLength →
      (p.update 0 g).1.trail
          = Particle.trimTrail (p.trail ++ [p.position]) p.maxTrailLength.toNat ∧
      (p.update 0 g).1.trail.getLast? = some p.position) := by
  obtain ⟨hv, hage, hlt, hrot, hav, htr, hmt, hdrag⟩ :=
    Particle.applyBehaviors_preserves
      { p with age := p.age + 0, previousPos := p.position } 0 g
  have hpos : (Particle.applyBehaviors
      { p with age := p.age + 0, previousPos := p.position } 0 g).1.position
      = p.position :=
    Particle.foldl_applyBehavior_position_zero _ _
  unfold Particle.update
  dsimp only
  refine ⟨?_, ?_, ?_, ?_, ?_⟩
  · split_ifs <;> simp_all
  · split_ifs <;> simp_all
  · split_ifs <;> simp_all
  · split_ifs <;> simp_all
  · intro hcap
    have hn : 0 < p.maxTrailLength.toNat := by omega
    constructor
    · split_ifs <;> simp_all
    · split_ifs <;>
        simp_all [Particle.trimTrail_getLast p.trail p.position p.maxTrailLength.toNat hn]

/-- Witness for C9 at a concrete trailing particle. -/
theorem C9_update_zero_dt_witness :
    (({ Particle.new with maxTrailLength := 3 } : Particle).update 0 gZero).1.trail.getLast?
      = some ({ Particle.new with maxTrailLength := 3 } : Particle).position :=
  ((C9_update_zero_dt { Particle.new with maxTrailLength := 3 } gZero).2.2.2.2
    (by norm_num)).2

/-! ## Swirl kinematics (C7) -/

@[simp] theorem Vec2.zero_smul_left (s : ℝ) : (⟨0, 0⟩ : Vec2) * s = (⟨0, 0⟩ : Vec2) := by
  ext <;> simp

/-- The position the `SWIRL` arm writes: the polar angle around `target`
advanced by `dt * behaviorStrength` at unchanged radius. -/
def swirlPos (p : Particle) (dt : ℝ) : Vec2 :=
  p.target + Vec2.fromAngle
    (atan2 (p.position.y - p.target.y) (p.position.x - p.target.x)
      + dt * p.behaviorStrength)
    ((p.position - p.target).length)

/-- With exactly the `SWIRL` behavior attached, the behavior pass is the
kinematic polar-angle override and nothing else (no random draw). -/
theorem Particle.applyBehavior_swirl_eq (p : Particle) (dt : ℝ) (g : Globals) :
    Particle.applyBehavior dt (p, g) ParticleBehavior.SWIRL
      = ({ p with position := swirlPos p dt }, g) := rfl

theorem Particle.applyBehaviors_swirl (p : Particle) (dt : ℝ) (g : Globals)
    (hb : p.behaviors = [ParticleBehavior.SWIRL]) :
    p.applyBehaviors dt g = ({ p with position := swirlPos p dt }, g) := by
  unfold Particle.applyBehaviors
  conv_lhs => rw [hb]
  simp only [List.foldl_cons, List.foldl_nil, Particle.applyBehavior_swirl_eq]

/-- The swirl override preserves the distance to `target`. -/
theorem swirlPos_radius (p : Particle) (dt : ℝ) :
    (swirlPos p dt - p.target).length = (p.position - p.target).length := by
  unfold swirlPos
  have hoff : ∀ w : Vec2, p.target + w - p.target = w := by
    intro w
    ext <;> simp
  rw [hoff, Vec2.length_fromAngle, abs_of_nonneg (Vec2.length_nonneg _)]

/-- One `update` step of a velocity-free, force-free swirling particle:
the swirl state is preserved and so is the distance to `target`. -/
theorem Particle.swirl_update_step (p : Particle) (dt : ℝ) (g : Globals)
    (hb : p.behaviors = [ParticleBehavior.SWIRL])
    (hv : p.velocity = ⟨0, 0⟩) (ha : p.acceleration = ⟨0, 0⟩) :
    (p.update dt g).1.behaviors = [ParticleBehavior.SWIRL] ∧
    (p.update dt g).1.velocity = ⟨0, 0⟩ ∧
    (p.update dt g).1.acceleration = ⟨0, 0⟩ ∧
    (p.update dt g).1.target = p.target ∧
    ((p.update dt g).1.position - p.target).length
      = (p.position - p.target).length := by
  have hb1 : ({ p with age := p.age + dt, previousPos := p.position } : Particle).behaviors
      = [ParticleBehavior.SWIRL] := hb
  unfold Particle.update
  rw [Particle.applyBehaviors_swirl _ _ _ hb1]
  dsimp only
  rw [hv, ha]
  simp only [Vec2.zero_smul_left, Vec2.add_zero_right]
  refine ⟨?_, ?_, ?_, ?_, ?_⟩
  · split_ifs <;> simp [hb]
  · split_ifs <;> simp
  · split_ifs <;> simp
  · split_ifs <;> simp
  · split_ifs <;>
      simpa using swirlPos_radius { p with age := p.age + dt, previousPos := p.position } dt

/-- C7: a particle whose behavior set is exactly `Swirl`, orbiting `target`
kinematically (no residual velocity or accumulated force), keeps
`|position - target|` invariant under arbitrarily many `update(dt)` calls;
in the real-valued model the radius is preserved exactly. -/
theorem C7_swirl_radius (dt : ℝ) (n : ℕ) :
    ∀ (p : Particle) (g : Globals),
    p.behaviors = [ParticleBehavior.SWIRL] →
    p.velocity = ⟨0, 0⟩ → p.acceleration = ⟨0, 0⟩ →
    ((Particle.updateIter dt n p g).1.position - p.target).length
      = (p.position - p.target).length := by
  induction n with
  | zero => intro p g _ _ _; rfl
  | succ n ih =>
      intro p g hb hv ha
      obtain ⟨sb, sv, sa, st, srad⟩ := Particle.swirl_update_step p dt g hb hv ha
      show ((Particle.updateIter dt n (p.update dt g).1 (p.update dt g).2).1.position
          - p.target).length = (p.position - p.target).length
      rw [← st, ih (p.update dt g).1 (p.update dt g).2 sb sv sa, st, srad]

/-- A concrete swirling particle at distance 1 from the origin target. -/
def swirler : Particle :=
  { Particle.new with position := ⟨1, 0⟩, target := ⟨0, 0⟩,
                      behaviors := [ParticleBehavior.SWIRL] }

/-- Witness for C7: ten steps of a concrete swirling particle keep its
distance to the target unchanged. -/
theorem C7_swirl_radius_witness :
    ((Particle.updateIter 1 10 swirler gZero).1.position - swirler.target).length
      = (swirler.position - swirler.target).length :=
  C7_swirl_radius 1 10 swirler gZero rfl rfl rfl

/-! ## Emission counting (C4) and pool conservation (C1) -/

/-- How many particles the emit loop actually moves: the request is capped
by the remaining headroom below `maxParticles` and by the pool size. -/
theorem ParticleEmitter.emitLoop_lengths (c : EmitterConfig) :
    ∀ (fuel : ℕ) (s : EmitterState) (g : Globals),
    (ParticleEmitter.emitLoop c s g fuel).1.activeParticles.length
        = s.activeParticles.length +
          min fuel (min (c.maxParticles - s.activeParticles.length)
            s.particlePool.length) ∧
    (ParticleEmitter.emitLoop c s g fuel).1.particlePool.length
        = s.particlePool.length -
          min fuel (min (c.maxParticles - s.activeParticles.length)
            s.particlePool.length) := by
  intro fuel
  induction fuel with
  | zero =>
      intro s g
      constructor <;> simp [ParticleEmitter.emitLoop]
  | succ n ih =>
      intro s g
      unfold ParticleEmitter.emitLoop
      by_cases hlt : s.activeParticles.length < c.maxParticles
      · rw [if_pos hlt]
        cases hpool : s.particlePool with
        | nil =>
            constructor <;> simp [hpool]
        | cons q rest =>
            dsimp only
            obtain ⟨ha, hp⟩ := ih
              { s with particlePool := rest,
                       activeParticles := s.activeParticles ++
                         [(ParticleEmitter.spawnParticle c q g).1] }
              (ParticleEmitter.spawnParticle c q g).2
            simp only [List.length_append, List.length_singleton] at ha hp
            simp only [List.length_cons]
            constructor
            · rw [ha]
              omega
            · rw [hp]
              omega
      · rw [if_neg hlt]
        have : c.maxParticles - s.activeParticles.length = 0 := by omega
        constructor <;> simp [this]

/-- C4: with a configured capacity of 10, `emit(50)` on a fresh emitter
yields exactly 10 active particles and an empty pool; the over-request is
silently truncated (the model has no error channel at all). -/
theorem C4_pool_exhaustion (c : EmitterConfig) (g : Globals)
    (hmax : c.maxParticles = 10) :
    (ParticleEmitter.emit c (ParticleEmitter.init c) 50 g).1.activeParticles.length = 10 ∧
    (ParticleEmitter.emit c (ParticleEmitter.init c) 50 g).1.particlePool = [] := by
  unfold ParticleEmitter.emit
  obtain ⟨ha, hp⟩ := ParticleEmitter.emitLoop_lengths c ((50 : ℤ).toNat)
    (ParticleEmitter.init c) g
  have hinit_a : (ParticleEmitter.init c).activeParticles.length = 0 := rfl
  have hinit_p : (ParticleEmitter.init c).particlePool.length = c.maxParticles := by
    show (List.replicate c.maxParticles Particle.new).length = c.maxParticles
    simp
  rw [hinit_a, hinit_p, hmax] at ha hp
  constructor
  · rw [ha]
    norm_num
  · rw [← List.length_eq_zero, hp]
    norm_num

/-- Witness for C4 at the default configuration capped to 10 particles. -/
theorem C4_pool_exhaustion_witness :
    (ParticleEmitter.emit { EmitterConfig.base with maxParticles := 10 }
      (ParticleEmitter.init { EmitterConfig.base with maxParticles := 10 })
      50 gZero).1.activeParticles.length = 10 ∧
    (ParticleEmitter.emit { EmitterConfig.base with maxParticles := 10 }
      (ParticleEmitter.init { EmitterConfig.base with maxParticles := 10 })
      50 gZero).1.particlePool = [] :=
  C4_pool_exhaustion { EmitterConfig.base with maxParticles := 10 } gZero rfl

/-- `emit` moves particles between pool and active set without changing the
total. -/
theorem ParticleEmitter.emit_sum (c : EmitterConfig) (s : EmitterState)
    (count : ℤ) (g : Globals) :
    (ParticleEmitter.emit c s count g).1.particlePool.length
      + (ParticleEmitter.emit c s count g).1.activeParticles.length
      = s.particlePool.length + s.activeParticles.length := by
  unfold ParticleEmitter.emit
  obtain ⟨ha, hp⟩ := ParticleEmitter.emitLoop_lengths c count.toNat s g
  rw [ha, hp]
  have := min_le_of_right_le (b := (c.maxParticles - s.activeParticles.length)
    ⊓ s.particlePool.length) (c := s.particlePool.length)
    (min_le_right _ _) (a := count.toNat)
  omega

/-- The update sweep conserves the total while the total fits the capacity:
every dead particle finds room in the pool because at the moment it is
returned the pool holds at most `capacity - 1` particles. -/
theorem ParticleEmitter.stepActives_conserve (c : EmitterConfig) (dt : ℝ) :
    ∀ (l pool : List Particle) (g : Globals),
    pool.length + l.length ≤ c.maxParticles →
    (ParticleEmitter.stepActives c dt l pool g).1.length
      + (ParticleEmitter.stepActives c dt l pool g).2.1.length
      = l.length + pool.length := by
  intro l
  induction l with
  | nil =>
      intro pool g _
      simp [ParticleEmitter.stepActives]
  | cons p rest ih =>
      intro pool g hle
      unfold ParticleEmitter.stepActives
      by_cases halive : (ParticleEmitter.processParticle c dt p g).1.isAlive
      · rw [if_pos halive]
        dsimp only
        have := ih pool (ParticleEmitter.processParticle c dt p g).2
          (by simp at hle; omega)
        simp only [List.length_cons]
        omega
      · rw [if_neg halive]
        have hroom : pool.length < c.maxParticles := by
          simp only [List.length_cons] at hle
          omega
        have hret : (ParticleEmitter.returnToPool c pool
            (ParticleEmitter.applyCallback c.onParticleDeath
              (ParticleEmitter.processParticle c dt p g).1)).length
            = pool.length + 1 := by
          unfold ParticleEmitter.returnToPool
          rw [if_pos hroom]
          simp
        have := ih (ParticleEmitter.returnToPool c pool
            (ParticleEmitter.applyCallback c.onParticleDeath
              (ParticleEmitter.processParticle c dt p g).1))
          (ParticleEmitter.processParticle c dt p g).2
          (by rw [hret]; simp only [List.length_cons] at hle; omega)
        rw [hret] at this
        simp only [List.length_cons]
        omega

/-- Returning a list of particles one by one conserves the total while it
fits the capacity. -/
theorem ParticleEmitter.foldl_returnToPool_length (c : EmitterConfig) :
    ∀ (l pool : List Particle),
    pool.length + l.length ≤ c.maxParticles →
    (l.foldl (ParticleEmitter.returnToPool c) pool).length
      = pool.length + l.length := by
  intro l
  induction l with
  | nil => intro pool _; simp
  | cons p rest ih =>
      intro pool hle
      simp only [List.length_cons] at hle
      have hroom : pool.length < c.maxParticles := by omega
      simp only [List.foldl_cons]
      have hret : (ParticleEmitter.returnToPool c pool p).length = pool.length + 1 := by
        unfold ParticleEmitter.returnToPool
        rw [if_pos hroom]
        simp
      rw [ih _ (by rw [hret]; omega), hret]
      simp only [List.length_cons]
      omega


/-- The burst phase conserves the pool/active total. -/
theorem ParticleEmitter.updateBurstPhase_sum (c : EmitterConfig) (dt : ℝ)
    (s : EmitterState) (g : Globals) :
    (ParticleEmitter.updateBurstPhase c dt s g).1.particlePool.length
      + (ParticleEmitter.updateBurstPhase c dt s g).1.activeParticles.length
      = s.particlePool.length + s.activeParticles.length := by
  unfold ParticleEmitter.updateBurstPhase ParticleEmitter.burst
  dsimp only
  split_ifs
  · exact ParticleEmitter.emit_sum c { s with burstTimer := 0 } c.burstCount g
  · rfl
  · rfl

/-- The continuous-emission phase conserves the pool/active total. -/
theorem ParticleEmitter.updateEmissionPhase_sum (c : EmitterConfig) (dt : ℝ)
    (s : EmitterState) (g : Globals) :
    (ParticleEmitter.updateEmissionPhase c dt s g).1.particlePool.length
      + (ParticleEmitter.updateEmissionPhase c dt s g).1.activeParticles.length
      = s.particlePool.length + s.activeParticles.length := by
  unfold ParticleEmitter.updateEmissionPhase
  dsimp only
  split_ifs
  · exact ParticleEmitter.emit_sum c _ _ g
  · rfl

/-- `update` preserves `pool + active = capacity`. -/
theorem ParticleEmitter.update_conserve (c : EmitterConfig) (dt : ℝ)
    (s : EmitterState) (g : Globals)
    (h : s.particlePool.length + s.activeParticles.length = c.maxParticles) :
    (ParticleEmitter.update c dt s g).1.particlePool.length
      + (ParticleEmitter.update c dt s g).1.activeParticles.length
      = c.maxParticles := by
  unfold ParticleEmitter.update
  dsimp only
  have h1 := ParticleEmitter.updateBurstPhase_sum c dt s g
  have h2 := ParticleEmitter.updateEmissionPhase_sum c dt
    (ParticleEmitter.updateBurstPhase c dt s g).1
    (ParticleEmitter.updateBurstPhase c dt s g).2
  have h3 := ParticleEmitter.stepActives_conserve c dt
    (ParticleEmitter.updateEmissionPhase c dt
      (ParticleEmitter.updateBurstPhase c dt s g).1
      (ParticleEmitter.updateBurstPhase c dt s g).2).1.activeParticles
    (ParticleEmitter.updateEmissionPhase c dt
      (ParticleEmitter.updateBurstPhase c dt s g).1
      (ParticleEmitter.updateBurstPhase c dt s g).2).1.particlePool
    (ParticleEmitter.updateEmissionPhase c dt
      (ParticleEmitter.updateBurstPhase c dt s g).1
      (ParticleEmitter.updateBurstPhase c dt s g).2).2
    (by omega)
  omega

/-- `clear` preserves `pool + active = capacity`. -/
theorem ParticleEmitter.clear_conserve (c : EmitterConfig) (s : EmitterState)
    (h : s.particlePool.length + s.activeParticles.length = c.maxParticles) :
    (ParticleEmitter.clear c s).particlePool.length
      + (ParticleEmitter.clear c s).activeParticles.length
      = c.maxParticles := by
  unfold ParticleEmitter.clear
  dsimp only
  rw [ParticleEmitter.foldl_returnToPool_length c s.activeParticles s.particlePool
    (by omega)]
  simp only [List.length_nil]
  omega

/-- C1: for every configuration and every sequence of `emit`, `burst`,
`update` and `clear` calls starting from a freshly initialized emitter,
the pool size plus the active count equals the configured capacity at every
observation point: no particle is ever lost or duplicated. -/
theorem C1_pool_conservation (c : EmitterConfig) (ops : List EmitterOp)
    (g : Globals) :
    (runOps c ops (ParticleEmitter.init c) g).1.particlePool.length
      + (runOps c ops (ParticleEmitter.init c) g).1.activeParticles.length
      = c.maxParticles := by
  have main : ∀ (ops : List EmitterOp) (s : EmitterState) (g : Globals),
      s.particlePool.length + s.activeParticles.length = c.maxParticles →
      (runOps c ops s g).1.particlePool.length
        + (runOps c ops s g).1.activeParticles.length = c.maxParticles := by
    intro ops
    induction ops with
    | nil => intro s g h; exact h
    | cons op rest ih =>
        intro s g h
        unfold runOps
        cases op with
        | emit n =>
            dsimp only
            exact ih _ _ (by
              have := ParticleEmitter.emit_sum c s n g
              omega)
        | burst =>
            dsimp only
            exact ih _ _ (by
              have := ParticleEmitter.emit_sum c s c.burstCount g
              unfold ParticleEmitter.burst
              omega)
        | update dt =>
            dsimp only
            exact ih _ _ (ParticleEmitter.update_conserve c dt s g h)
        | clear =>
            dsimp only
            exact ih _ _ (ParticleEmitter.clear_conserve c s h)
  exact main ops (ParticleEmitter.init c) g (by
    show (List.replicate c.maxParticles Particle.new).length + ([] : List Particle).length
      = c.maxParticles
    simp)

/-! ## The random stream itself is never modified, only consumed -/

theorem Utils.randomFloat_stream (lo hi : ℝ) (g : Globals) :
    (Utils.randomFloat lo hi g).2.stream = g.stream := rfl

theorem ParticleEmitter.getEmissionPosition_stream (c : EmitterConfig) (g : Globals) :
    (ParticleEmitter.getEmissionPosition c g).2.stream = g.stream := by
  unfold ParticleEmitter.getEmissionPosition
  cases c.pattern <;> simp [Utils.randomFloat]

theorem ParticleEmitter.getEmissionVelocity_stream (c : EmitterConfig) (g : Globals) :
    (ParticleEmitter.getEmissionVelocity c g).2.stream = g.stream := rfl

theorem ParticleEmitter.spawnParticle_stream (c : EmitterConfig) (q : Particle)
    (g : Globals) :
    (ParticleEmitter.spawnParticle c q g).2.stream = g.stream := by
  unfold ParticleEmitter.spawnParticle
  dsimp only
  simp [Utils.randomFloat, ParticleEmitter.getEmissionVelocity,
    ParticleEmitter.getEmissionPosition_stream c g]

theorem ParticleEmitter.emitLoop_stream (c : EmitterConfig) :
    ∀ (fuel : ℕ) (s : EmitterState) (g : Globals),
    (ParticleEmitter.emitLoop c s g fuel).2.stream = g.stream := by
  intro fuel
  induction fuel with
  | zero => intro s g; rfl
  | succ n ih =>
      intro s g
      unfold ParticleEmitter.emitLoop
      split_ifs
      · cases s.particlePool with
        | nil => rfl
        | cons q rest =>
            dsimp only
            rw [ih, ParticleEmitter.spawnParticle_stream]
      · rfl

theorem ForceField.getForce_stream (f : ForceField) (v : Vec2) (g : Globals) :
    (f.getForce v g).2.stream = g.stream := by
  unfold ForceField.getForce
  dsimp only
  split_ifs
  · rfl
  · cases f.type <;> rfl

theorem Particle.applyBehavior_stream (dt : ℝ) (pg : Particle × Globals)
    (b : ParticleBehavior) :
    (Particle.applyBehavior dt pg b).2.stream = pg.2.stream := by
  cases b <;>
    simp only [Particle.applyBehavior, Particle.applyForce] <;>
    (try split_ifs) <;>
    rfl

theorem Particle.foldl_applyBehavior_stream (dt : ℝ) (l : List ParticleBehavior) :
    ∀ pg : Particle × Globals,
    (l.foldl (Particle.applyBehavior dt) pg).2.stream = pg.2.stream := by
  induction l with
  | nil => intro pg; rfl
  | cons b l ih =>
      intro pg
      simp only [List.foldl_cons]
      rw [ih, Particle.applyBehavior_stream]

theorem Particle.update_stream (p : Particle) (dt : ℝ) (g : Globals) :
    (p.update dt g).2.stream = g.stream := by
  unfold Particle.update Particle.applyBehaviors
  dsimp only
  exact Particle.foldl_applyBehavior_stream dt _ _

theorem ParticleEmitter.fieldFold_stream :
    ∀ (fs : List ForceField) (pg : Particle × Globals),
    (fs.foldl (fun pg f =>
      (pg.1.applyForce (ForceField.getForce f pg.1.position pg.2).1,
       (ForceField.getForce f pg.1.position pg.2).2)) pg).2.stream = pg.2.stream := by
  intro fs
  induction fs with
  | nil => intro pg; rfl
  | cons f fs ih =>
      intro pg
      simp only [List.foldl_cons]
      rw [ih]
      exact ForceField.getForce_stream f pg.1.position pg.2

theorem ParticleEmitter.processParticle_stream (c : EmitterConfig) (dt : ℝ)
    (p : Particle) (g : Globals) :
    (ParticleEmitter.processParticle c dt p g).2.stream = g.stream := by
  unfold ParticleEmitter.processParticle
  dsimp only
  rw [Particle.update_stream, ParticleEmitter.fieldFold_stream]

theorem ParticleEmitter.stepActives_stream (c : EmitterConfig) (dt : ℝ) :
    ∀ (l pool : List Particle) (g : Globals),
    (ParticleEmitter.stepActives c dt l pool g).2.2.stream = g.stream := by
  intro l
  induction l with
  | nil => intro pool g; rfl
  | cons p rest ih =>
      intro pool g
      unfold ParticleEmitter.stepActives
      dsimp only
      split_ifs <;>
        rw [ih, ParticleEmitter.processParticle_stream]

theorem ParticleEmitter.emitterUpdate_stream (c : EmitterConfig) (dt : ℝ)
    (s : EmitterState) (g : Globals) :
    (ParticleEmitter.update c dt s g).2.stream = g.stream := by
  unfold ParticleEmitter.update ParticleEmitter.updateBurstPhase
    ParticleEmitter.updateEmissionPhase ParticleEmitter.burst
    ParticleEmitter.emit
  dsimp only
  rw [ParticleEmitter.stepActives_stream]
  split_ifs <;> simp [ParticleEmitter.emitLoop_stream]

/-! ## Ages and lifetimes through one update step -/

/-- `Particle::update` advances `age` by exactly `dt` and never touches
`lifetime`. -/
theorem Particle.update_age (p : Particle) (dt : ℝ) (g : Globals) :
    (p.update dt g).1.age = p.age + dt ∧ (p.update dt g).1.lifetime = p.lifetime := by
  obtain ⟨_, hage, hlt, _, _, _, _, _⟩ :=
    Particle.applyBehaviors_preserves
      { p with age := p.age + dt, previousPos := p.position } dt g
  unfold Particle.update
  dsimp only
  constructor <;> (split_ifs <;> simp_all)

@[simp] theorem Particle.applyForce_age (p : Particle) (f : Vec2) :
    (p.applyForce f).age = p.age := rfl

@[simp] theorem Particle.applyForce_lifetime (p : Particle) (f : Vec2) :
    (p.applyForce f).lifetime = p.lifetime := rfl

/-- The force-field fold only accumulates into `acceleration`. -/
theorem ParticleEmitter.fieldFold_age :
    ∀ (fs : List ForceField) (pg : Particle × Globals),
    (fs.foldl (fun pg f =>
      (pg.1.applyForce (ForceField.getForce f pg.1.position pg.2).1,
       (ForceField.getForce f pg.1.position pg.2).2)) pg).1.age = pg.1.age ∧
    (fs.foldl (fun pg f =>
      (pg.1.applyForce (ForceField.getForce f pg.1.position pg.2).1,
       (ForceField.getForce f pg.1.position pg.2).2)) pg).1.lifetime = pg.1.lifetime := by
  intro fs
  induction fs with
  | nil => intro pg; exact ⟨rfl, rfl⟩
  | cons f fs ih =>
      intro pg
      simp only [List.foldl_cons]
      obtain ⟨h1, h2⟩ := ih
        (pg.1.applyForce (ForceField.getForce f pg.1.position pg.2).1,
         (ForceField.getForce f pg.1.position pg.2).2)
      exact ⟨h1, h2⟩

/-- The collision bounce only touches `velocity.y` and `position.y`. -/
theorem ParticleEmitter.collideRect_age (p : Particle) (r : FRect) :
    (ParticleEmitter.collideRect p r).age = p.age ∧
    (ParticleEmitter.collideRect p r).lifetime = p.lifetime := by
  unfold ParticleEmitter.collideRect
  split_ifs <;> exact ⟨rfl, rfl⟩

theorem ParticleEmitter.collideFold_age :
    ∀ (rs : List FRect) (p : Particle),
    (rs.foldl ParticleEmitter.collideRect p).age = p.age ∧
    (rs.foldl ParticleEmitter.collideRect p).lifetime = p.lifetime := by
  intro rs
  induction rs with
  | nil => intro p; exact ⟨rfl, rfl⟩
  | cons r rs ih =>
      intro p
      simp only [List.foldl_cons]
      obtain ⟨h1, h2⟩ := ih (ParticleEmitter.collideRect p r)
      obtain ⟨g1, g2⟩ := ParticleEmitter.collideRect_age p r
      exact ⟨h1.trans g1, h2.trans g2⟩

/-- Without an `onParticleUpdate` callback, one pass of the per-particle
update body advances `age` by exactly `dt` and preserves `lifetime`. -/
theorem ParticleEmitter.processParticle_age (c : EmitterConfig) (dt : ℝ)
    (p : Particle) (g : Globals) (hcb : c.onParticleUpdate = none) :
    (ParticleEmitter.processParticle c dt p g).1.age = p.age + dt ∧
    (ParticleEmitter.processParticle c dt p g).1.lifetime = p.lifetime := by
  unfold ParticleEmitter.processParticle
  dsimp only
  rw [hcb]
  simp only [ParticleEmitter.applyCallback]
  obtain ⟨hf1, hf2⟩ := ParticleEmitter.fieldFold_age c.forceFields (p, g)
  constructor
  · split_ifs <;>
      (first
        | (rw [ParticleEmitter.collideFold_age _ _ |>.1,
               Particle.update_age _ _ _ |>.1]
           simp only [Particle.applyForce_age]
           rw [hf1])
        | (rw [Particle.update_age _ _ _ |>.1]
           simp only [Particle.applyForce_age]
           rw [hf1]))
  · split_ifs <;>
      (first
        | (rw [ParticleEmitter.collideFold_age _ _ |>.2,
               Particle.update_age _ _ _ |>.2]
           simp only [Particle.applyForce_lifetime]
           rw [hf2])
        | (rw [Particle.update_age _ _ _ |>.2]
           simp only [Particle.applyForce_lifetime]
           rw [hf2]))

/-- When every processed particle survives, the sweep keeps every particle
(ages advanced by `dt`), leaves the pool alone, and its survivors are
exactly the processed originals. -/
theorem ParticleEmitter.stepActives_all_alive (c : EmitterConfig) (dt : ℝ)
    (hcb : c.onParticleUpdate = none) :
    ∀ (l pool : List Particle) (g : Globals),
    (∀ p ∈ l, p.age + dt < p.lifetime) →
    (ParticleEmitter.stepActives c dt l pool g).1.length = l.length ∧
    (ParticleEmitter.stepActives c dt l pool g).2.1 = pool ∧
    (∀ x ∈ (ParticleEmitter.stepActives c dt l pool g).1,
      ∃ p ∈ l, x.age = p.age + dt ∧ x.lifetime = p.lifetime) := by
  intro l
  induction l with
  | nil =>
      intro pool g _
      refine ⟨rfl, rfl, ?_⟩
      intro x hx
      simp [ParticleEmitter.stepActives] at hx
  | cons p rest ih =>
      intro pool g hal
      obtain ⟨ha, hl⟩ := ParticleEmitter.processParticle_age c dt p g hcb
      have halive : (ParticleEmitter.processParticle c dt p g).1.isAlive := by
        unfold Particle.isAlive
        rw [ha, hl]
        exact hal p (by simp)
      unfold ParticleEmitter.stepActives
      dsimp only
      rw [if_pos halive]
      obtain ⟨ih1, ih2, ih3⟩ := ih pool (ParticleEmitter.processParticle c dt p g).2
        (fun q hq => hal q (List.mem_cons_of_mem _ hq))
      refine ⟨?_, ih2, ?_⟩
      · simp [ih1]
      · intro x hx
        rcases List.mem_cons.mp hx with hx | hx
        · exact ⟨p, by simp, by rw [hx]; exact ⟨ha, hl⟩⟩
        · obtain ⟨q, hq, hq2⟩ := ih3 x hx
          exact ⟨q, List.mem_cons_of_mem _ hq, hq2⟩

/-- The pool after the emit loop is a sub-collection of the original pool. -/
theorem ParticleEmitter.emitLoop_pool_subset (c : EmitterConfig) :
    ∀ (fuel : ℕ) (s : EmitterState) (g : Globals),
    ∀ x ∈ (ParticleEmitter.emitLoop c s g fuel).1.particlePool,
    x ∈ s.particlePool := by
  intro fuel
  induction fuel with
  | zero => intro s g x hx; exact hx
  | succ n ih =>
      intro s g x
      unfold ParticleEmitter.emitLoop
      split_ifs
      · cases hpool : s.particlePool with
        | nil =>
            intro hx
            dsimp only at hx
            rw [hpool] at hx
            exact hx
        | cons q rest =>
            dsimp only
            intro hx
            exact List.mem_cons_of_mem _ (ih _ _ x hx)
      · intro hx
        exact hx

/-- Every particle in the active set after the emit loop either was active
before or is freshly spawned from a pool particle with the unchanged draw
stream. -/
theorem ParticleEmitter.emitLoop_active_members (c : EmitterConfig) :
    ∀ (fuel : ℕ) (s : EmitterState) (g : Globals),
    ∀ x ∈ (ParticleEmitter.emitLoop c s g fuel).1.activeParticles,
    x ∈ s.activeParticles ∨
    ∃ q gq, q ∈ s.particlePool ∧ gq.stream = g.stream ∧
      x = (ParticleEmitter.spawnParticle c q gq).1 := by
  intro fuel
  induction fuel with
  | zero => intro s g x hx; exact Or.inl hx
  | succ n ih =>
      intro s g x
      unfold ParticleEmitter.emitLoop
      split_ifs
      · cases hpool : s.particlePool with
        | nil => intro hx; exact Or.inl hx
        | cons q rest =>
            dsimp only
            intro hx
            rcases ih _ _ x hx with hx1 | ⟨q2, gq, hq2, hgq, hx2⟩
            · rcases List.mem_append.mp hx1 with hx1 | hx1
              · exact Or.inl hx1
              · refine Or.inr ⟨q, g, ?_, rfl, ?_⟩
                · simp
                · simpa using hx1
            · refine Or.inr ⟨q2, gq, ?_, ?_, hx2⟩
              · exact List.mem_cons_of_mem _ hq2
              · rw [hgq]
                exact ParticleEmitter.spawnParticle_stream c q g
      · intro hx
        exact Or.inl hx

/-- Facts about a freshly spawned particle (no `onParticleSpawn` callback):
its age is the pool particle's age, and its lifetime is drawn from
`lifetimeRange` — `lo + (hi - lo) * u` for some unit draw `u` of the
stream. -/
theorem ParticleEmitter.spawnParticle_facts (c : EmitterConfig) (q : Particle)
    (g : Globals) (hcb : c.onParticleSpawn = none) :
    (ParticleEmitter.spawnParticle c q g).1.age = q.age ∧
    ∃ k, (ParticleEmitter.spawnParticle c q g).1.lifetime
      = c.lifetimeRange.1 + (c.lifetimeRange.2 - c.lifetimeRange.1) * g.stream k := by
  unfold ParticleEmitter.spawnParticle
  dsimp only
  rw [hcb]
  simp only [ParticleEmitter.applyCallback]
  constructor
  · trivial
  · refine ⟨((ParticleEmitter.getEmissionVelocity c
      (ParticleEmitter.getEmissionPosition c g).2).2).k, ?_⟩
    show (Utils.randomFloat c.lifetimeRange.1 c.lifetimeRange.2
        (ParticleEmitter.getEmissionVelocity c
          (ParticleEmitter.getEmissionPosition c g).2).2).1 = _
    unfold Utils.randomFloat
    dsimp only
    rw [show (ParticleEmitter.getEmissionVelocity c
        (ParticleEmitter.getEmissionPosition c g).2).2.stream = g.stream by
      rw [ParticleEmitter.getEmissionVelocity_stream,
        ParticleEmitter.getEmissionPosition_stream]]

/-- `static_cast<int>` agrees with `⌊·⌋` on nonnegative values. -/
theorem truncInt_of_nonneg (x : ℝ) (h : 0 ≤ x) : truncInt x = ⌊x⌋ := by
  unfold truncInt
  rw [if_pos h]

/-- The emit loop never touches the accumulator or the burst timer. -/
theorem ParticleEmitter.emitLoop_fields (c : EmitterConfig) :
    ∀ (fuel : ℕ) (s : EmitterState) (g : Globals),
    (ParticleEmitter.emitLoop c s g fuel).1.emissionAccumulator
        = s.emissionAccumulator ∧
    (ParticleEmitter.emitLoop c s g fuel).1.burstTimer = s.burstTimer := by
  intro fuel
  induction fuel with
  | zero => intro s g; exact ⟨rfl, rfl⟩
  | succ n ih =>
      intro s g
      unfold ParticleEmitter.emitLoop
      split_ifs
      · cases s.particlePool with
        | nil => exact ⟨rfl, rfl⟩
        | cons q rest =>
            dsimp only
            obtain ⟨h1, h2⟩ := ih
              { s with particlePool := rest,
                       activeParticles := s.activeParticles ++
                         [(ParticleEmitter.spawnParticle c q g).1] }
              (ParticleEmitter.spawnParticle c q g).2
            exact ⟨h1, h2⟩
      · exact ⟨rfl, rfl⟩

/-- When the request fits both the headroom and the pool, the emit loop
emits exactly the request. -/
theorem ParticleEmitter.emitLoop_full (c : EmitterConfig) (fuel : ℕ)
    (s : EmitterState) (g : Globals)
    (h1 : s.activeParticles.length + fuel ≤ c.maxParticles)
    (h2 : fuel ≤ s.particlePool.length) :
    (ParticleEmitter.emitLoop c s g fuel).1.activeParticles.length
        = s.activeParticles.length + fuel ∧
    (ParticleEmitter.emitLoop c s g fuel).1.particlePool.length
        = s.particlePool.length - fuel := by
  obtain ⟨ha, hp⟩ := ParticleEmitter.emitLoop_lengths c fuel s g
  omega

/-- With `burstMode = false` the burst phase is the identity. -/
theorem ParticleEmitter.updateBurstPhase_skip (c : EmitterConfig) (dt : ℝ)
    (s : EmitterState) (g : Globals) (hbm : c.burstMode = false) :
    ParticleEmitter.updateBurstPhase c dt s g = (s, g) := by
  unfold ParticleEmitter.updateBurstPhase
  rw [if_neg (by simp [hbm])]

/-- With `burstMode = false` and `active = true` the emission phase emits
the integer part of the advanced accumulator and keeps the fraction. -/
theorem ParticleEmitter.updateEmissionPhase_run (c : EmitterConfig) (dt : ℝ)
    (s : EmitterState) (g : Globals) (hbm : c.burstMode = false)
    (hact : c.active = true) :
    ParticleEmitter.updateEmissionPhase c dt s g =
      ParticleEmitter.emit c
        { s with emissionAccumulator := s.emissionAccumulator + dt * c.emissionRate
            - truncInt (s.emissionAccumulator + dt * c.emissionRate) }
        (truncInt (s.emissionAccumulator + dt * c.emissionRate)) g := by
  unfold ParticleEmitter.updateEmissionPhase
  rw [if_pos (by simp [hbm, hact])]

/-- With `burstMode = false` and `active = true`, one `update` is the
emission phase followed by the sweep. -/
theorem ParticleEmitter.update_decompose (c : EmitterConfig) (dt : ℝ)
    (s : EmitterState) (g : Globals) (hbm : c.burstMode = false) :
    ParticleEmitter.update c dt s g =
      ({ (ParticleEmitter.updateEmissionPhase c dt s g).1 with
          activeParticles := (ParticleEmitter.stepActives c dt
            (ParticleEmitter.updateEmissionPhase c dt s g).1.activeParticles
            (ParticleEmitter.updateEmissionPhase c dt s g).1.particlePool
            (ParticleEmitter.updateEmissionPhase c dt s g).2).1,
          particlePool := (ParticleEmitter.stepActives c dt
            (ParticleEmitter.updateEmissionPhase c dt s g).1.activeParticles
            (ParticleEmitter.updateEmissionPhase c dt s g).1.particlePool
            (ParticleEmitter.updateEmissionPhase c dt s g).2).2.1 },
        (ParticleEmitter.stepActives c dt
          (ParticleEmitter.updateEmissionPhase c dt s g).1.activeParticles
          (ParticleEmitter.updateEmissionPhase c dt s g).1.particlePool
          (ParticleEmitter.updateEmissionPhase c dt s g).2).2.2) := by
  unfold ParticleEmitter.update
  rw [ParticleEmitter.updateBurstPhase_skip c dt s g hbm]

/-- `emit` is the emit loop with the truncated count as fuel. -/
theorem ParticleEmitter.emit_eq_loop (c : EmitterConfig) (s : EmitterState)
    (count : ℤ) (g : Globals) :
    ParticleEmitter.emit c s count g = ParticleEmitter.emitLoop c s g count.toNat := rfl

set_option maxHeartbeats 2000000 in
/-- The rate-integrator invariant: over `n` ticks with no deaths possible
and no pool truncation, `active + accumulator` grows by exactly
`n * (dt * emissionRate)` and the accumulator stays in `[0, 1)`. -/
theorem ParticleEmitter.rate_iterate (c : EmitterConfig) (dt : ℝ) (g0 : Globals)
    (hbm : c.burstMode = false) (hact : c.active = true)
    (hcb1 : c.onParticleSpawn = none) (hcb2 : c.onParticleUpdate = none)
    (hR : 0 ≤ c.emissionRate) (hdt : 0 ≤ dt)
    (hrange : c.lifetimeRange.1 ≤ c.lifetimeRange.2)
    (hstream : ∀ k, 0 ≤ g0.stream k) :
    ∀ (n : ℕ) (s : EmitterState) (g : Globals),
    g.stream = g0.stream →
    (n : ℝ) * dt < c.lifetimeRange.1 →
    s.particlePool.length + s.activeParticles.length = c.maxParticles →
    0 ≤ s.emissionAccumulator →
    s.emissionAccumulator < 1 →
    (∀ p ∈ s.activeParticles, p.age + (n : ℝ) * dt < p.lifetime) →
    (∀ p ∈ s.particlePool, p.age = 0) →
    (s.activeParticles.length : ℝ) + s.emissionAccumulator
        + n * (dt * c.emissionRate) ≤ c.maxParticles →
    ((updateIter c dt n s g).1.activeParticles.length : ℝ)
        + (updateIter c dt n s g).1.emissionAccumulator
      = s.activeParticles.length + s.emissionAccumulator + n * (dt * c.emissionRate)
    ∧ 0 ≤ (updateIter c dt n s g).1.emissionAccumulator
    ∧ (updateIter c dt n s g).1.emissionAccumulator < 1 := by
  intro n
  induction n with
  | zero =>
      intro s g _ _ _ hacc0 hacc1 _ _ _
      refine ⟨?_, hacc0, hacc1⟩
      simp only [updateIter]
      push_cast
      ring
  | succ n ih =>
      intro s g hg hlo hsum hacc0 hacc1 hages hpool0 hroom
      have hdtR : 0 ≤ dt * c.emissionRate := mul_nonneg hdt hR
      have hndtR : 0 ≤ (n : ℝ) * (dt * c.emissionRate) :=
        mul_nonneg (Nat.cast_nonneg n) hdtR
      have hcast : ((n + 1 : ℕ) : ℝ) = (n : ℝ) + 1 := by push_cast; ring
      have hAnn : 0 ≤ s.emissionAccumulator + dt * c.emissionRate := by linarith
      have htr : truncInt (s.emissionAccumulator + dt * c.emissionRate)
          = ⌊s.emissionAccumulator + dt * c.emissionRate⌋ :=
        truncInt_of_nonneg _ hAnn
      have hfl : ((⌊s.emissionAccumulator + dt * c.emissionRate⌋ : ℤ) : ℝ)
          ≤ s.emissionAccumulator + dt * c.emissionRate := Int.floor_le _
      have hfl1 : s.emissionAccumulator + dt * c.emissionRate
          < (⌊s.emissionAccumulator + dt * c.emissionRate⌋ : ℝ) + 1 :=
        Int.lt_floor_add_one _
      have hflnn : 0 ≤ ⌊s.emissionAccumulator + dt * c.emissionRate⌋ :=
        Int.floor_nonneg.mpr hAnn
      have htn : ((⌊s.emissionAccumulator + dt * c.emissionRate⌋.toNat : ℕ) : ℝ)
          = ((⌊s.emissionAccumulator + dt * c.emissionRate⌋ : ℤ) : ℝ) := by
        exact_mod_cast congrArg (fun z : ℤ => (z : ℝ)) (Int.toNat_of_nonneg hflnn)
      -- the request fits the headroom and the pool
      have hcountR : (s.activeParticles.length : ℝ)
          + (⌊s.emissionAccumulator + dt * c.emissionRate⌋ : ℝ)
          ≤ c.maxParticles := by
        rw [hcast] at hroom
        nlinarith
      have hfit : s.activeParticles.length
          + ⌊s.emissionAccumulator + dt * c.emissionRate⌋.toNat
          ≤ c.maxParticles := by
        have h1 : ((s.activeParticles.length
            + ⌊s.emissionAccumulator + dt * c.emissionRate⌋.toNat : ℕ) : ℝ)
            ≤ (c.maxParticles : ℝ) := by
          rw [Nat.cast_add, htn]
          exact hcountR
        exact_mod_cast h1
      have hpoolfit : ⌊s.emissionAccumulator + dt * c.emissionRate⌋.toNat
          ≤ s.particlePool.length := by omega
      -- decompose the update
      have hupd := ParticleEmitter.update_decompose c dt s g hbm
      rw [ParticleEmitter.updateEmissionPhase_run c dt s g hbm hact, htr,
        ParticleEmitter.emit_eq_loop] at hupd
      set E := ParticleEmitter.emitLoop c
        { s with emissionAccumulator := s.emissionAccumulator + dt * c.emissionRate
            - (⌊s.emissionAccumulator + dt * c.emissionRate⌋ : ℝ) }
        g (⌊s.emissionAccumulator + dt * c.emissionRate⌋).toNat with hEdef
      -- facts about the emission result
      obtain ⟨hE1, hE2⟩ := ParticleEmitter.emitLoop_full c
        (⌊s.emissionAccumulator + dt * c.emissionRate⌋).toNat
        { s with emissionAccumulator := s.emissionAccumulator + dt * c.emissionRate
            - (⌊s.emissionAccumulator + dt * c.emissionRate⌋ : ℝ) } g
        (by dsimp only; exact hfit) (by dsimp only; exact hpoolfit)
      rw [← hEdef] at hE1 hE2
      dsimp only at hE1 hE2
      have hE3 : E.1.emissionAccumulator
          = s.emissionAccumulator + dt * c.emissionRate
            - (⌊s.emissionAccumulator + dt * c.emissionRate⌋ : ℝ) :=
        (ParticleEmitter.emitLoop_fields c _ _ _).1
      have hE4 : E.2.stream = g.stream := ParticleEmitter.emitLoop_stream c _ _ _
      -- all particles after emission survive the sweep
      have halive : ∀ p ∈ E.1.activeParticles, p.age + dt < p.lifetime := by
        rw [hEdef]
        intro p hp
        rcases ParticleEmitter.emitLoop_active_members c _ _ _ p hp with hp1 | hp2
        · have := hages p (by dsimp only at hp1; exact hp1)
          rw [hcast] at this
          nlinarith
        · obtain ⟨q, gq, hq, hgq, hpq⟩ := hp2
          dsimp only at hq
          obtain ⟨hage, k, hlife⟩ := ParticleEmitter.spawnParticle_facts c q gq hcb1
          have hq0 : q.age = 0 := hpool0 q hq
          have hu : 0 ≤ gq.stream k := by rw [hgq, hg]; exact hstream k
          have hll : c.lifetimeRange.1 ≤ p.lifetime := by
            rw [hpq, hlife]
            nlinarith
          rw [hpq, hage, hq0]
          rw [hcast] at hlo
          nlinarith
      obtain ⟨hS1, hS2, hS3⟩ := ParticleEmitter.stepActives_all_alive c dt hcb2
        E.1.activeParticles E.1.particlePool E.2 halive
      have hlen : (E.1.activeParticles.length : ℝ)
          = (s.activeParticles.length : ℝ)
            + (⌊s.emissionAccumulator + dt * c.emissionRate⌋ : ℝ) := by
        rw [hE1, Nat.cast_add, htn]
      -- apply the induction hypothesis to the post-update state
      have hstep : updateIter c dt (n + 1) s g
          = updateIter c dt n
            (ParticleEmitter.update c dt s g).1
            (ParticleEmitter.update c dt s g).2 := rfl
      obtain ⟨ihEq, ihA0, ihA1⟩ := ih (ParticleEmitter.update c dt s g).1
        (ParticleEmitter.update c dt s g).2
        (by rw [hupd]
            dsimp only
            rw [ParticleEmitter.stepActives_stream, hE4, hg])
        (by rw [hcast] at hlo
            nlinarith [Nat.cast_nonneg (α := ℝ) n])
        (by rw [hupd]
            dsimp only
            rw [hS2, hS1]
            omega)
        (by rw [hupd]
            dsimp only
            rw [hE3]
            linarith)
        (by rw [hupd]
            dsimp only
            rw [hE3]
            linarith)
        (by rw [hupd]
            dsimp only
            intro x hx
            obtain ⟨p, hp, hxa, hxl⟩ := hS3 x hx
            rw [hEdef] at hp
            rcases ParticleEmitter.emitLoop_active_members c _ _ _ p hp with hp1 | hp2
            · have := hages p (by dsimp only at hp1; exact hp1)
              rw [hcast] at this
              rw [hxa, hxl]
              nlinarith
            · obtain ⟨q, gq, hq, hgq, hpq⟩ := hp2
              dsimp only at hq
              obtain ⟨hage, k, hlife⟩ := ParticleEmitter.spawnParticle_facts c q gq hcb1
              have hq0 : q.age = 0 := hpool0 q hq
              have hu : 0 ≤ gq.stream k := by rw [hgq, hg]; exact hstream k
              have hll : c.lifetimeRange.1 ≤ p.lifetime := by
                rw [hpq, hlife]
                nlinarith
              rw [hxa, hxl, hpq, hage, hq0]
              rw [hcast] at hlo
              nlinarith)
        (by rw [hupd]
            dsimp only
            rw [hS2]
            intro x hx
            rw [hEdef] at hx
            have hx2 := ParticleEmitter.emitLoop_pool_subset c _ _ _ x hx
            dsimp only at hx2
            exact hpool0 x hx2)
        (by rw [hupd]
            dsimp only
            rw [hS1, hE3, hlen]
            rw [hcast] at hroom
            nlinarith)
      rw [hstep]
      refine ⟨?_, ihA0, ihA1⟩
      rw [ihEq]
      rw [hupd]
      dsimp only
      rw [hS1, hE3, hlen, hcast]
      ring

/-- C6: driving a continuously-emitting emitter (`burstMode` off, active,
no callbacks, pool ample, lifetimes exceeding the horizon) with rate `R`
and fixed timestep `dt` for `N` ticks leaves `round(R*N*dt)` particles
active, within ±1: the fractional accumulator carries the remainder across
ticks instead of truncating per tick. -/
theorem C6_rate_integrator (c : EmitterConfig) (g0 : Globals) (dt : ℝ) (N : ℕ)
    (hbm : c.burstMode = false) (hact : c.active = true)
    (hcb1 : c.onParticleSpawn = none) (hcb2 : c.onParticleUpdate = none)
    (hR : 0 ≤ c.emissionRate) (hdt : 0 ≤ dt)
    (hstream : ∀ k, 0 ≤ g0.stream k)
    (hrange : c.lifetimeRange.1 ≤ c.lifetimeRange.2)
    (hlife : (N : ℝ) * dt < c.lifetimeRange.1)
    (hroom : (N : ℝ) * (dt * c.emissionRate) ≤ c.maxParticles) :
    |((updateIter c dt N (ParticleEmitter.init c) g0).1.activeParticles.length : ℤ)
      - round (c.emissionRate * N * dt)| ≤ 1 := by
  obtain ⟨hEq, hA0, hA1⟩ := ParticleEmitter.rate_iterate c dt g0 hbm hact hcb1 hcb2
    hR hdt hrange hstream N (ParticleEmitter.init c) g0 rfl hlife
    (by show (List.replicate c.maxParticles Particle.new).length
          + ([] : List Particle).length = c.maxParticles
        simp)
    (by show (0:ℝ) ≤ 0; norm_num)
    (by show (0:ℝ) < 1; norm_num)
    (by intro p hp
        exact absurd hp (List.not_mem_nil p))
    (by intro p hp
        have hmem : p = Particle.new := List.eq_of_mem_replicate hp
        rw [hmem]
        rfl)
    (by show ((0:ℕ):ℝ) + 0 + (N:ℝ) * (dt * c.emissionRate) ≤ c.maxParticles
        push_cast
        linarith)
  have hEq2 : ((updateIter c dt N (ParticleEmitter.init c) g0).1.activeParticles.length : ℝ)
      = (N : ℝ) * (dt * c.emissionRate)
        - (updateIter c dt N (ParticleEmitter.init c) g0).1.emissionAccumulator := by
    have hini1 : (ParticleEmitter.init c).activeParticles.length = 0 := rfl
    have hini2 : (ParticleEmitter.init c).emissionAccumulator = 0 := rfl
    have hEq3 := hEq
    rw [hini1, hini2] at hEq3
    push_cast at hEq3
    linarith
  have hfloor : ⌊(N : ℝ) * (dt * c.emissionRate)⌋
      = ((updateIter c dt N (ParticleEmitter.init c) g0).1.activeParticles.length : ℤ) := by
    rw [Int.floor_eq_iff]
    constructor
    · push_cast
      linarith
    · push_cast
      linarith
  have hx : c.emissionRate * (N : ℝ) * dt = (N : ℝ) * (dt * c.emissionRate) := by ring
  rw [hx, round_eq]
  have h1 : ⌊(N : ℝ) * (dt * c.emissionRate)⌋ ≤ ⌊(N : ℝ) * (dt * c.emissionRate) + 1/2⌋ :=
    Int.floor_le_floor (by linarith)
  have h2 : ⌊(N : ℝ) * (dt * c.emissionRate) + 1/2⌋ ≤ ⌊(N : ℝ) * (dt * c.emissionRate)⌋ + 1 := by
    rw [← Int.floor_add_one]
    exact Int.floor_le_floor (by linarith)
  rw [abs_le]
  omega

/-- Witness for C6: default configuration, one tick of 1/100 s at rate 100. -/
theorem C6_rate_integrator_witness :
    |((updateIter EmitterConfig.base (1/100) 1
        (ParticleEmitter.init EmitterConfig.base) gZero).1.activeParticles.length : ℤ)
      - round (EmitterConfig.base.emissionRate * (1 : ℕ) * (1/100 : ℝ))| ≤ 1 :=
  C6_rate_integrator EmitterConfig.base gZero (1/100) 1 rfl rfl rfl rfl
    (by norm_num [EmitterConfig.base])
    (by norm_num)
    (by intro k; norm_num [gZero])
    (by norm_num [EmitterConfig.base])
    (by norm_num [EmitterConfig.base])
    (by norm_num [EmitterConfig.base])

/-! ## The burst timer, and updates in burst mode -/

/-- With `burstMode = true` the continuous-emission phase is the identity. -/
theorem ParticleEmitter.updateEmissionPhase_skip (c : EmitterConfig) (dt : ℝ)
    (s : EmitterState) (g : Globals) (hbm : c.burstMode = true) :
    ParticleEmitter.updateEmissionPhase c dt s g = (s, g) := by
  unfold ParticleEmitter.updateEmissionPhase
  rw [if_neg (by simp [hbm])]

/-- With `active = false` the continuous-emission phase is the identity. -/
theorem ParticleEmitter.updateEmissionPhase_inactive (c : EmitterConfig)
    (dt : ℝ) (s : EmitterState) (g : Globals) (hact : c.active = false) :
    ParticleEmitter.updateEmissionPhase c dt s g = (s, g) := by
  unfold ParticleEmitter.updateEmissionPhase
  rw [if_neg (by simp [hact])]

/-- With `active = false` the burst phase is the identity. -/
theorem ParticleEmitter.updateBurstPhase_inactive (c : EmitterConfig) (dt : ℝ)
    (s : EmitterState) (g : Globals) (hact : c.active = false) :
    ParticleEmitter.updateBurstPhase c dt s g = (s, g) := by
  unfold ParticleEmitter.updateBurstPhase
  rw [if_neg (by simp [hact])]

/-- In burst mode, while the advanced timer stays below the interval, the
burst phase only advances the timer. -/
theorem ParticleEmitter.updateBurstPhase_noburst (c : EmitterConfig) (dt : ℝ)
    (s : EmitterState) (g : Globals) (hbm : c.burstMode = true)
    (hact : c.active = true) (ht : s.burstTimer + dt < c.burstInterval) :
    ParticleEmitter.updateBurstPhase c dt s g
      = ({ s with burstTimer := s.burstTimer + dt }, g) := by
  unfold ParticleEmitter.updateBurstPhase
  rw [if_pos (by simp [hbm, hact])]
  dsimp only
  rw [if_neg (not_le.mpr ht)]

/-- In burst mode, once the advanced timer reaches the interval, the burst
phase resets the timer and fires a burst. -/
theorem ParticleEmitter.updateBurstPhase_fire (c : EmitterConfig) (dt : ℝ)
    (s : EmitterState) (g : Globals) (hbm : c.burstMode = true)
    (hact : c.active = true) (ht : c.burstInterval ≤ s.burstTimer + dt) :
    ParticleEmitter.updateBurstPhase c dt s g
      = ParticleEmitter.burst c { s with burstTimer := 0 } g := by
  unfold ParticleEmitter.updateBurstPhase
  rw [if_pos (by simp [hbm, hact])]
  dsimp only
  rw [if_pos ht]

/-- With `active = false`, one `update` is the particle sweep alone. -/
theorem ParticleEmitter.update_inactive (c : EmitterConfig) (dt : ℝ)
    (s : EmitterState) (g : Globals) (hact : c.active = false) :
    ParticleEmitter.update c dt s g =
      ({ s with
          activeParticles := (ParticleEmitter.stepActives c dt
            s.activeParticles s.particlePool g).1,
          particlePool := (ParticleEmitter.stepActives c dt
            s.activeParticles s.particlePool g).2.1 },
        (ParticleEmitter.stepActives c dt
          s.activeParticles s.particlePool g).2.2) := by
  unfold ParticleEmitter.update
  dsimp only
  rw [ParticleEmitter.updateBurstPhase_inactive c dt s g hact]
  dsimp only
  rw [ParticleEmitter.updateEmissionPhase_inactive c dt s g hact]

/-- In burst mode, below the interval, one `update` advances the timer and
runs the particle sweep. -/
theorem ParticleEmitter.update_burst_noburst (c : EmitterConfig) (dt : ℝ)
    (s : EmitterState) (g : Globals) (hbm : c.burstMode = true)
    (hact : c.active = true) (ht : s.burstTimer + dt < c.burstInterval) :
    ParticleEmitter.update c dt s g =
      ({ s with
          burstTimer := s.burstTimer + dt,
          activeParticles := (ParticleEmitter.stepActives c dt
            s.activeParticles s.particlePool g).1,
          particlePool := (ParticleEmitter.stepActives c dt
            s.activeParticles s.particlePool g).2.1 },
        (ParticleEmitter.stepActives c dt
          s.activeParticles s.particlePool g).2.2) := by
  unfold ParticleEmitter.update
  dsimp only
  rw [ParticleEmitter.updateBurstPhase_noburst c dt s g hbm hact ht]
  dsimp only
  rw [ParticleEmitter.updateEmissionPhase_skip c dt _ g hbm]

/-- In burst mode, at the interval, one `update` is a timer reset, a burst,
and the particle sweep over the post-burst state. -/
theorem ParticleEmitter.update_burst_fire (c : EmitterConfig) (dt : ℝ)
    (s : EmitterState) (g : Globals) (hbm : c.burstMode = true)
    (hact : c.active = true) (ht : c.burstInterval ≤ s.burstTimer + dt) :
    ParticleEmitter.update c dt s g =
      ({ (ParticleEmitter.burst c { s with burstTimer := 0 } g).1 with
          activeParticles := (ParticleEmitter.stepActives c dt
            (ParticleEmitter.burst c { s with burstTimer := 0 } g).1.activeParticles
            (ParticleEmitter.burst c { s with burstTimer := 0 } g).1.particlePool
            (ParticleEmitter.burst c { s with burstTimer := 0 } g).2).1,
          particlePool := (ParticleEmitter.stepActives c dt
            (ParticleEmitter.burst c { s with burstTimer := 0 } g).1.activeParticles
            (ParticleEmitter.burst c { s with burstTimer := 0 } g).1.particlePool
            (ParticleEmitter.burst c { s with burstTimer := 0 } g).2).2.1 },
        (ParticleEmitter.stepActives c dt
          (ParticleEmitter.burst c { s with burstTimer := 0 } g).1.activeParticles
          (ParticleEmitter.burst c { s with burstTimer := 0 } g).1.particlePool
          (ParticleEmitter.burst c { s with burstTimer := 0 } g).2).2.2) := by
  unfold ParticleEmitter.update
  dsimp only
  rw [ParticleEmitter.updateBurstPhase_fire c dt s g hbm hact ht]
  rw [ParticleEmitter.updateEmissionPhase_skip c dt _ _ hbm]

/-- Every survivor of the sweep comes from a processed active particle: its
age is the parent's age plus `dt`, its lifetime is the parent's, and it
passed the `isAlive` check. -/
theorem ParticleEmitter.stepActives_survivors (c : EmitterConfig) (dt : ℝ)
    (hcb : c.onParticleUpdate = none) :
    ∀ (l pool : List Particle) (g : Globals),
    ∀ x ∈ (ParticleEmitter.stepActives c dt l pool g).1,
    ∃ p ∈ l, x.age = p.age + dt ∧ x.lifetime = p.lifetime ∧
      x.age < x.lifetime := by
  intro l
  induction l with
  | nil => intro pool g x hx; simp [ParticleEmitter.stepActives] at hx
  | cons p rest ih =>
      intro pool g x
      unfold ParticleEmitter.stepActives
      dsimp only
      split_ifs with halive
      · intro hx
        rcases List.mem_cons.mp hx with hx | hx
        · obtain ⟨ha, hl⟩ := ParticleEmitter.processParticle_age c dt p g hcb
          refine ⟨p, by simp, ?_⟩
          rw [hx]
          have halive2 : (ParticleEmitter.processParticle c dt p g).1.age
              < (ParticleEmitter.processParticle c dt p g).1.lifetime := halive
          exact ⟨ha, hl, halive2⟩
        · obtain ⟨q, hq, hfacts⟩ := ih pool
            (ParticleEmitter.processParticle c dt p g).2 x hx
          exact ⟨q, List.mem_cons_of_mem _ hq, hfacts⟩
      · intro hx
        obtain ⟨q, hq, hfacts⟩ := ih
          (ParticleEmitter.returnToPool c pool
            (ParticleEmitter.applyCallback c.onParticleDeath
              (ParticleEmitter.processParticle c dt p g).1))
          (ParticleEmitter.processParticle c dt p g).2 x hx
        exact ⟨q, List.mem_cons_of_mem _ hq, hfacts⟩

/-- When every processed particle dies and the pool has room for all of
them, the sweep empties the active set, grows the pool by exactly the
active count, and every pool particle keeps age `0`. -/
theorem ParticleEmitter.stepActives_all_dead (c : EmitterConfig) (dt : ℝ)
    (hcb : c.onParticleUpdate = none) :
    ∀ (l pool : List Particle) (g : Globals),
    (∀ p ∈ l, p.lifetime ≤ p.age + dt) →
    pool.length + l.length ≤ c.maxParticles →
    (∀ x ∈ pool, x.age = 0) →
    (ParticleEmitter.stepActives c dt l pool g).1 = [] ∧
    (ParticleEmitter.stepActives c dt l pool g).2.1.length
        = pool.length + l.length ∧
    (∀ x ∈ (ParticleEmitter.stepActives c dt l pool g).2.1, x.age = 0) := by
  intro l
  induction l with
  | nil =>
      intro pool g _ _ hpool
      exact ⟨rfl, by show pool.length = pool.length + ([] : List Particle).length; simp, hpool⟩
  | cons p rest ih =>
      intro pool g hdead hroom hpool
      obtain ⟨ha, hl⟩ := ParticleEmitter.processParticle_age c dt p g hcb
      have hnal : ¬ (ParticleEmitter.processParticle c dt p g).1.isAlive := by
        unfold Particle.isAlive
        rw [ha, hl]
        exact not_lt.mpr (hdead p (by simp))
      unfold ParticleEmitter.stepActives
      dsimp only
      rw [if_neg hnal]
      have hlt : pool.length < c.maxParticles := by
        simp only [List.length_cons] at hroom; omega
      have hret : ParticleEmitter.returnToPool c pool
            (ParticleEmitter.applyCallback c.onParticleDeath
              (ParticleEmitter.processParticle c dt p g).1)
          = (ParticleEmitter.applyCallback c.onParticleDeath
              (ParticleEmitter.processParticle c dt p g).1).reset :: pool := by
        unfold ParticleEmitter.returnToPool
        rw [if_pos hlt]
      rw [hret]
      obtain ⟨h1, h2, h3⟩ := ih
        ((ParticleEmitter.applyCallback c.onParticleDeath
          (ParticleEmitter.processParticle c dt p g).1).reset :: pool)
        (ParticleEmitter.processParticle c dt p g).2
        (fun q hq => hdead q (List.mem_cons_of_mem _ hq))
        (by simp only [List.length_cons] at hroom ⊢; omega)
        (by intro x hx
            rcases List.mem_cons.mp hx with hx | hx
            · rw [hx]; rfl
            · exact hpool x hx)
      refine ⟨h1, ?_, h3⟩
      rw [h2]
      simp only [List.length_cons]
      omega

/-- `updateIter` peels its first step. -/
theorem updateIter_succ_eq (c : EmitterConfig) (dt : ℝ) (n : ℕ)
    (s : EmitterState) (g : Globals) :
    updateIter c dt (n + 1) s g
      = updateIter c dt n (ParticleEmitter.update c dt s g).1
          (ParticleEmitter.update c dt s g).2 := rfl

/-- `updateIter` over a sum of tick counts runs the first block, then the
second. -/
theorem updateIter_add (c : EmitterConfig) (dt : ℝ) :
    ∀ (m n : ℕ) (s : EmitterState) (g : Globals),
    updateIter c dt (m + n) s g
      = updateIter c dt n (updateIter c dt m s g).1
          (updateIter c dt m s g).2 := by
  intro m
  induction m with
  | zero =>
      intro n s g
      rw [Nat.zero_add]
      rfl
  | succ m ih =>
      intro n s g
      rw [Nat.succ_add, updateIter_succ_eq, updateIter_succ_eq, ih]

/-- Iterated updates never change the draw stream. -/
theorem updateIter_stream (c : EmitterConfig) (dt : ℝ) :
    ∀ (n : ℕ) (s : EmitterState) (g : Globals),
    (updateIter c dt n s g).2.stream = g.stream := by
  intro n
  induction n with
  | zero => intro s g; rfl
  | succ n ih =>
      intro s g
      rw [updateIter_succ_eq, ih, ParticleEmitter.emitterUpdate_stream]

/-- A quiet run in burst mode: over `n` ticks in which the burst timer
never reaches the interval and every active particle (all at age `a` with
lifetime `L`) stays alive, the active count, the pool, and the draw stream
are untouched, while ages and the timer advance by `n * dt`. -/
theorem ParticleEmitter.burstIter_quiet (c : EmitterConfig) (dt : ℝ)
    (hbm : c.burstMode = true) (hact : c.active = true)
    (hcb : c.onParticleUpdate = none) (hdt : 0 ≤ dt) :
    ∀ (n : ℕ) (s : EmitterState) (g : Globals) (a L : ℝ),
    (∀ x ∈ s.activeParticles, x.age = a ∧ x.lifetime = L) →
    s.burstTimer + n * dt < c.burstInterval →
    a + n * dt < L →
    (updateIter c dt n s g).1.activeParticles.length
        = s.activeParticles.length ∧
    (∀ x ∈ (updateIter c dt n s g).1.activeParticles,
        x.age = a + n * dt ∧ x.lifetime = L) ∧
    (updateIter c dt n s g).1.particlePool = s.particlePool ∧
    (updateIter c dt n s g).1.burstTimer = s.burstTimer + n * dt ∧
    (updateIter c dt n s g).2.stream = g.stream := by
  intro n
  induction n with
  | zero =>
      intro s g a L hmem _ _
      refine ⟨rfl, ?_, rfl, by norm_num [updateIter], rfl⟩
      intro x hx
      obtain ⟨h1, h2⟩ := hmem x hx
      exact ⟨by rw [h1]; norm_num, h2⟩
  | succ n ih =>
      intro s g a L hmem htimer hage
      have hndt : (0:ℝ) ≤ (n:ℝ) * dt := mul_nonneg (Nat.cast_nonneg n) hdt
      have htimer1 : s.burstTimer + dt < c.burstInterval := by
        push_cast at htimer; linarith
      have hage1 : ∀ p ∈ s.activeParticles, p.age + dt < p.lifetime := by
        intro p hp
        obtain ⟨h1, h2⟩ := hmem p hp
        rw [h1, h2]
        push_cast at hage; linarith
      have hupd := ParticleEmitter.update_burst_noburst c dt s g hbm hact htimer1
      obtain ⟨hlen, hpool, hmem2⟩ :=
        ParticleEmitter.stepActives_all_alive c dt hcb
          s.activeParticles s.particlePool g hage1
      have hmem' : ∀ x ∈ (ParticleEmitter.update c dt s g).1.activeParticles,
          x.age = a + dt ∧ x.lifetime = L := by
        intro x hx
        rw [hupd] at hx
        dsimp only at hx
        obtain ⟨p, hp, h1, h2⟩ := hmem2 x hx
        obtain ⟨hpa, hpl⟩ := hmem p hp
        exact ⟨by rw [h1, hpa], by rw [h2, hpl]⟩
      have hf1 : (ParticleEmitter.update c dt s g).1.particlePool
          = s.particlePool := by
        rw [hupd]; exact hpool
      have hf2 : (ParticleEmitter.update c dt s g).1.burstTimer
          = s.burstTimer + dt := by
        rw [hupd]
      have hf3 : (ParticleEmitter.update c dt s g).1.activeParticles.length
          = s.activeParticles.length := by
        rw [hupd]; exact hlen
      have hf4 : (ParticleEmitter.update c dt s g).2.stream = g.stream :=
        ParticleEmitter.emitterUpdate_stream c dt s g
      obtain ⟨ih1, ih2, ih3, ih4, ih5⟩ := ih (ParticleEmitter.update c dt s g).1
        (ParticleEmitter.update c dt s g).2 (a + dt) L hmem'
        (by rw [hf2]; push_cast at htimer ⊢; linarith)
        (by push_cast at hage ⊢; linarith)
      rw [updateIter_succ_eq]
      refine ⟨?_, ?_, ?_, ?_, ?_⟩
      · rw [ih1, hf3]
      · intro x hx
        obtain ⟨h1, h2⟩ := ih2 x hx
        exact ⟨by rw [h1]; push_cast; ring, h2⟩
      · rw [ih3, hf1]
      · rw [ih4, hf2]; push_cast; ring
      · rw [ih5, hf4]

/-- With an inactive emitter, after at least one tick every remaining
active particle has aged by exactly `n * dt` from the common starting age,
is still alive, and keeps its spawn lifetime bound. -/
theorem ParticleEmitter.inactiveIter_member (c : EmitterConfig) (dt : ℝ)
    (hact : c.active = false) (hcb : c.onParticleUpdate = none) :
    ∀ (n : ℕ) (s : EmitterState) (g : Globals) (a : ℝ), 1 ≤ n →
    (∀ x ∈ s.activeParticles, x.age = a ∧ x.lifetime ≤ 1) →
    ∀ x ∈ (updateIter c dt n s g).1.activeParticles,
      x.age = a + n * dt ∧ x.age < x.lifetime ∧ x.lifetime ≤ 1 := by
  intro n
  induction n with
  | zero => intro s g a h1; omega
  | succ n ih =>
      intro s g a _ hmem x
      have hupd := ParticleEmitter.update_inactive c dt s g hact
      have hmem' : ∀ y ∈ (ParticleEmitter.update c dt s g).1.activeParticles,
          y.age = a + dt ∧ y.age < y.lifetime ∧ y.lifetime ≤ 1 := by
        intro y hy
        rw [hupd] at hy
        dsimp only at hy
        obtain ⟨p, hp, h1, h2, h3⟩ := ParticleEmitter.stepActives_survivors c dt hcb
          s.activeParticles s.particlePool g y hy
        obtain ⟨hpa, hpl⟩ := hmem p hp
        exact ⟨by rw [h1, hpa], h3, by rw [h2]; exact hpl⟩
      rcases Nat.eq_zero_or_pos n with h0 | hpos
      · subst h0
        rw [updateIter_succ_eq]
        intro hx
        obtain ⟨h1, h2, h3⟩ := hmem' x hx
        exact ⟨by rw [h1]; norm_num, h2, h3⟩
      · rw [updateIter_succ_eq]
        intro hx
        obtain ⟨h1, h2, h3⟩ := ih (ParticleEmitter.update c dt s g).1
          (ParticleEmitter.update c dt s g).2 (a + dt) hpos
          (fun y hy => ⟨(hmem' y hy).1, (hmem' y hy).2.2⟩) x hx
        exact ⟨by rw [h1]; push_cast; ring, h2, h3⟩

/-- A burst of 200 on a freshly initialised emitter with capacity at least
200: exactly 200 particles become active, all at age `0`, each with a
lifetime drawn from `lifetimeRange`; the pool shrinks by 200, the burst
timer stays `0`, and the draw stream function is unchanged. -/
theorem ParticleEmitter.burst_fresh (c : EmitterConfig) (g : Globals)
    (hbc : c.burstCount = 200) (hcap : 200 ≤ c.maxParticles)
    (hcb1 : c.onParticleSpawn = none) :
    (ParticleEmitter.burst c (ParticleEmitter.init c) g).1.activeParticles.length
        = 200 ∧
    (∀ x ∈ (ParticleEmitter.burst c (ParticleEmitter.init c) g).1.activeParticles,
      x.age = 0 ∧ ∃ k, x.lifetime
        = c.lifetimeRange.1 + (c.lifetimeRange.2 - c.lifetimeRange.1) * g.stream k) ∧
    (ParticleEmitter.burst c (ParticleEmitter.init c) g).1.particlePool.length
        = c.maxParticles - 200 ∧
    (ParticleEmitter.burst c (ParticleEmitter.init c) g).1.burstTimer = 0 ∧
    (ParticleEmitter.burst c (ParticleEmitter.init c) g).2.stream = g.stream := by
  have hbeq : ParticleEmitter.burst c (ParticleEmitter.init c) g
      = ParticleEmitter.emitLoop c (ParticleEmitter.init c) g 200 := by
    unfold ParticleEmitter.burst ParticleEmitter.emit
    rw [hbc]
    rw [show ((200 : ℤ).toNat) = 200 from rfl]
  have hi1 : (ParticleEmitter.init c).activeParticles.length = 0 := rfl
  have hi2 : (ParticleEmitter.init c).particlePool.length = c.maxParticles := by
    simp [ParticleEmitter.init]
  obtain ⟨hA, hP⟩ := ParticleEmitter.emitLoop_full c 200 (ParticleEmitter.init c) g
    (by rw [hi1]; omega) (by rw [hi2]; exact hcap)
  refine ⟨?_, ?_, ?_, ?_, ?_⟩
  · rw [hbeq, hA, hi1]
  · intro x hx
    rw [hbeq] at hx
    rcases ParticleEmitter.emitLoop_active_members c 200 (ParticleEmitter.init c) g
        x hx with h0 | ⟨q, gq, hq, hgq, hx2⟩
    · exact absurd h0 (List.not_mem_nil x)
    · have hqq : q = Particle.new := List.eq_of_mem_replicate hq
      obtain ⟨hage, k, hlt⟩ := ParticleEmitter.spawnParticle_facts c q gq hcb1
      refine ⟨?_, k, ?_⟩
      · rw [hx2, hage, hqq]; rfl
      · rw [hx2, hlt, hgq]
  · rw [hbeq, hP, hi2]
  · rw [hbeq]
    exact (ParticleEmitter.emitLoop_fields c 200 (ParticleEmitter.init c) g).2
  · rw [hbeq]
    exact ParticleEmitter.emitLoop_stream c 200 (ParticleEmitter.init c) g

/-- C3: amended explosion-burst scenario.  As stated in the spec the claim
is false for the default `active = true` (see `C3_counterexample`: the
burst timer re-fires at the sixtieth tick).  Amended: with the emitter
deactivated after configuration (`active = false`), null spawn/update
callbacks, and unit draws in `[0, 1]`, one `burst()` on a fresh emitter
with `burstMode = true`, `burstCount = 200`, `pattern = SPHERE`,
`speedRange = [200, 500]`, `lifetimeRange = [0.5, 1.0]` and capacity at
least 200 makes `getParticleCount()` equal 200, and after sixty
`update(1/60)` calls the count is 0. -/
theorem C3_explosion_burst (c : EmitterConfig) (g : Globals)
    (hbm : c.burstMode = true) (hbc : c.burstCount = 200)
    (hpat : c.pattern = .SPHERE) (hspeed : c.speedRange = (200, 500))
    (hlife : c.lifetimeRange = (1/2, 1)) (hcap : 200 ≤ c.maxParticles)
    (hact : c.active = false)
    (hcb1 : c.onParticleSpawn = none) (hcb2 : c.onParticleUpdate = none)
    (hstream : ∀ k, 0 ≤ g.stream k ∧ g.stream k ≤ 1) :
    ParticleEmitter.getParticleCount
        (ParticleEmitter.burst c (ParticleEmitter.init c) g).1 = 200 ∧
    ParticleEmitter.getParticleCount
        (updateIter c (1/60) 60
          (ParticleEmitter.burst c (ParticleEmitter.init c) g).1
          (ParticleEmitter.burst c (ParticleEmitter.init c) g).2).1 = 0 := by
  obtain ⟨hlen, hmem, hplen, hbt, hgs⟩ :=
    ParticleEmitter.burst_fresh c g hbc hcap hcb1
  constructor
  · exact hlen
  · have hmem1 : ∀ x ∈ (ParticleEmitter.burst c
        (ParticleEmitter.init c) g).1.activeParticles,
        x.age = 0 ∧ x.lifetime ≤ 1 := by
      intro x hx
      obtain ⟨hage, k, hlt⟩ := hmem x hx
      refine ⟨hage, ?_⟩
      rw [hlife] at hlt
      norm_num at hlt
      obtain ⟨h0k, h1k⟩ := hstream k
      rw [hlt]
      linarith
    have hstep := ParticleEmitter.inactiveIter_member c (1/60) hact hcb2 60
      (ParticleEmitter.burst c (ParticleEmitter.init c) g).1
      (ParticleEmitter.burst c (ParticleEmitter.init c) g).2 0
      (by norm_num) hmem1
    have hempty : (updateIter c (1/60) 60
        (ParticleEmitter.burst c (ParticleEmitter.init c) g).1
        (ParticleEmitter.burst c (ParticleEmitter.init c) g).2).1.activeParticles
          = [] := by
      rw [List.eq_nil_iff_forall_not_mem]
      intro x hx
      obtain ⟨h1, h2, h3⟩ := hstep x hx
      rw [h1] at h2
      norm_num at h2
      linarith
    unfold ParticleEmitter.getParticleCount
    rw [hempty]
    rfl

/-- The explosion-burst configuration of the scenario: capacity 200,
`burstMode`, `burstCount = 200`, sphere pattern, `speedRange = [200,500]`,
`lifetimeRange = [0.5,1.0]`; everything else keeps the C++ defaults, in
particular `active = true` and `burstInterval = 1`. -/
def c3config : EmitterConfig :=
  { EmitterConfig.base with
      maxParticles := 200
      burstMode := true
      burstCount := 200
      pattern := .SPHERE
      speedRange := (200, 500)
      lifetimeRange := (1/2, 1) }

/-- First half of the scenario run (ticks 1-30): from a full burst of 200
particles all at age `0` with lifetime `1/2` and an empty pool, 29 quiet
ticks age everyone to `29/60`, and the thirtieth tick kills every particle
(age reaches `1/2`), refilling the pool with 200 reset particles. -/
theorem c3run_dead :
    ∀ (s : EmitterState) (g : Globals),
    s.activeParticles.length = 200 →
    (∀ x ∈ s.activeParticles, x.age = 0 ∧ x.lifetime = 1/2) →
    s.particlePool = [] →
    s.burstTimer = 0 →
    (updateIter c3config (1/60) 30 s g).1.activeParticles = [] ∧
    (updateIter c3config (1/60) 30 s g).1.particlePool.length = 200 ∧
    (∀ x ∈ (updateIter c3config (1/60) 30 s g).1.particlePool, x.age = 0) ∧
    (updateIter c3config (1/60) 30 s g).1.burstTimer = 30/60 ∧
    (updateIter c3config (1/60) 30 s g).2.stream = g.stream := by
  intro s g hlen hmem hpool hbt
  obtain ⟨hA1, hA2, hA3, hA4, hA5⟩ :=
    ParticleEmitter.burstIter_quiet c3config (1/60) rfl rfl rfl (by norm_num)
      29 s g 0 (1/2) hmem
      (by rw [hbt, show c3config.burstInterval = (1:ℝ) from rfl]
          push_cast; norm_num)
      (by push_cast; norm_num)
  have ht30 : (updateIter c3config (1/60) 29 s g).1.burstTimer + 1/60
      < c3config.burstInterval := by
    rw [hA4, hbt, show c3config.burstInterval = (1:ℝ) from rfl]
    push_cast; norm_num
  have hupd30 := ParticleEmitter.update_burst_noburst c3config (1/60)
    (updateIter c3config (1/60) 29 s g).1 (updateIter c3config (1/60) 29 s g).2
    rfl rfl ht30
  have hdead : ∀ p ∈ (updateIter c3config (1/60) 29 s g).1.activeParticles,
      p.lifetime ≤ p.age + 1/60 := by
    intro p hp
    obtain ⟨h1, h2⟩ := hA2 p hp
    rw [h1, h2]; push_cast; norm_num
  have hroom : (updateIter c3config (1/60) 29 s g).1.particlePool.length
      + (updateIter c3config (1/60) 29 s g).1.activeParticles.length
      ≤ c3config.maxParticles := by
    rw [hA3, hpool, hA1, hlen, show c3config.maxParticles = 200 from rfl]
    simp
  have hpa : ∀ x ∈ (updateIter c3config (1/60) 29 s g).1.particlePool,
      x.age = 0 := by
    rw [hA3, hpool]
    intro x hx
    exact absurd hx (List.not_mem_nil x)
  obtain ⟨hd1, hd2, hd3⟩ := ParticleEmitter.stepActives_all_dead c3config (1/60)
    rfl (updateIter c3config (1/60) 29 s g).1.activeParticles
    (updateIter c3config (1/60) 29 s g).1.particlePool
    (updateIter c3config (1/60) 29 s g).2 hdead hroom hpa
  have h30 : updateIter c3config (1/60) 30 s g
      = ParticleEmitter.update c3config (1/60)
          (updateIter c3config (1/60) 29 s g).1
          (updateIter c3config (1/60) 29 s g).2 := by
    rw [show (30:ℕ) = 29 + 1 from rfl, updateIter_add]
    rfl
  refine ⟨?_, ?_, ?_, ?_, ?_⟩
  · rw [h30, hupd30]
    exact hd1
  · rw [h30, hupd30]
    show (ParticleEmitter.stepActives c3config (1/60)
        (updateIter c3config (1/60) 29 s g).1.activeParticles
        (updateIter c3config (1/60) 29 s g).1.particlePool
        (updateIter c3config (1/60) 29 s g).2).2.1.length = 200
    rw [hd2, hA3, hpool, hA1, hlen]
    simp
  · rw [h30, hupd30]
    exact hd3
  · rw [h30, hupd30]
    show (updateIter c3config (1/60) 29 s g).1.burstTimer + 1/60 = 30/60
    rw [hA4, hbt]
    push_cast; norm_num
  · rw [h30, ParticleEmitter.emitterUpdate_stream]
    exact hA5

/-- Second half of the scenario run (ticks 31-60): with nothing active, a
full pool of 200 reset particles and the burst timer at `30/60`, 29 quiet
ticks bring the timer to `59/60`, and the sixtieth tick crosses the
interval `1`, re-firing the burst: 200 fresh particles (age `1/60`,
lifetime `1/2`) are active again. -/
theorem c3run_refire :
    ∀ (s : EmitterState) (g : Globals),
    s.activeParticles = [] →
    s.particlePool.length = 200 →
    (∀ x ∈ s.particlePool, x.age = 0) →
    s.burstTimer = 30/60 →
    (∀ k, g.stream k = 0) →
    (updateIter c3config (1/60) 30 s g).1.activeParticles.length = 200 := by
  intro s g hact hplen hpa hbt hgs
  obtain ⟨hB1, hB2, hB3, hB4, hB5⟩ :=
    ParticleEmitter.burstIter_quiet c3config (1/60) rfl rfl rfl (by norm_num)
      29 s g 0 1
      (by rw [hact]; intro x hx; exact absurd hx (List.not_mem_nil x))
      (by rw [hbt, show c3config.burstInterval = (1:ℝ) from rfl]
          push_cast; norm_num)
      (by push_cast; norm_num)
  have h59a : (updateIter c3config (1/60) 29 s g).1.activeParticles = [] := by
    have h := hB1
    rw [hact] at h
    simp only [List.length_nil] at h
    exact List.length_eq_zero.mp h
  have ht60 : c3config.burstInterval
      ≤ (updateIter c3config (1/60) 29 s g).1.burstTimer + 1/60 := by
    rw [hB4, hbt, show c3config.burstInterval = (1:ℝ) from rfl]
    push_cast; norm_num
  have hupd60 := ParticleEmitter.update_burst_fire c3config (1/60)
    (updateIter c3config (1/60) 29 s g).1 (updateIter c3config (1/60) 29 s g).2
    rfl rfl ht60
  have hsba : ({ (updateIter c3config (1/60) 29 s g).1 with
      burstTimer := (0:ℝ) }).activeParticles = [] := h59a
  have hbeq60 : ParticleEmitter.burst c3config
        { (updateIter c3config (1/60) 29 s g).1 with burstTimer := (0:ℝ) }
        (updateIter c3config (1/60) 29 s g).2
      = ParticleEmitter.emitLoop c3config
        { (updateIter c3config (1/60) 29 s g).1 with burstTimer := (0:ℝ) }
        (updateIter c3config (1/60) 29 s g).2 200 := rfl
  obtain ⟨hF1, hF2⟩ := ParticleEmitter.emitLoop_full c3config 200
    { (updateIter c3config (1/60) 29 s g).1 with burstTimer := (0:ℝ) }
    (updateIter c3config (1/60) 29 s g).2
    (by show (updateIter c3config (1/60) 29 s g).1.activeParticles.length + 200
          ≤ c3config.maxParticles
        rw [h59a, show c3config.maxParticles = 200 from rfl]
        simp)
    (by show 200 ≤ (updateIter c3config (1/60) 29 s g).1.particlePool.length
        rw [hB3]
        omega)
  have hBmem : ∀ x ∈ (ParticleEmitter.burst c3config
        { (updateIter c3config (1/60) 29 s g).1 with burstTimer := (0:ℝ) }
        (updateIter c3config (1/60) 29 s g).2).1.activeParticles,
      x.age + 1/60 < x.lifetime := by
    intro x hx
    rw [hbeq60] at hx
    rcases ParticleEmitter.emitLoop_active_members c3config 200
        { (updateIter c3config (1/60) 29 s g).1 with burstTimer := (0:ℝ) }
        (updateIter c3config (1/60) 29 s g).2 x hx with
      h0 | ⟨q, gq, hq, hgq, hx2⟩
    · rw [hsba] at h0
      exact absurd h0 (List.not_mem_nil x)
    · have hq0 : q.age = 0 := by
        have hq2 : q ∈ (updateIter c3config (1/60) 29 s g).1.particlePool := hq
        rw [hB3] at hq2
        exact hpa q hq2
      obtain ⟨hage, k, hlt⟩ := ParticleEmitter.spawnParticle_facts c3config q gq rfl
      have hgq0 : gq.stream k = 0 := by
        rw [hgq, hB5]
        exact hgs k
      have hxage : x.age = 0 := by rw [hx2, hage, hq0]
      have hxlt : x.lifetime = 1/2 := by
        rw [hx2, hlt, hgq0,
          show c3config.lifetimeRange = ((1:ℝ)/2, (1:ℝ)) from rfl]
        norm_num
      rw [hxage, hxlt]
      norm_num
  obtain ⟨hS1, hS2, hS3⟩ := ParticleEmitter.stepActives_all_alive c3config (1/60)
    rfl
    (ParticleEmitter.burst c3config
      { (updateIter c3config (1/60) 29 s g).1 with burstTimer := (0:ℝ) }
      (updateIter c3config (1/60) 29 s g).2).1.activeParticles
    (ParticleEmitter.burst c3config
      { (updateIter c3config (1/60) 29 s g).1 with burstTimer := (0:ℝ) }
      (updateIter c3config (1/60) 29 s g).2).1.particlePool
    (ParticleEmitter.burst c3config
      { (updateIter c3config (1/60) 29 s g).1 with burstTimer := (0:ℝ) }
      (updateIter c3config (1/60) 29 s g).2).2 hBmem
  have h60 : updateIter c3config (1/60) 30 s g
      = ParticleEmitter.update c3config (1/60)
          (updateIter c3config (1/60) 29 s g).1
          (updateIter c3config (1/60) 29 s g).2 := by
    rw [show (30:ℕ) = 29 + 1 from rfl, updateIter_add]
    rfl
  rw [h60, hupd60]
  show (ParticleEmitter.stepActives c3config (1/60)
      (ParticleEmitter.burst c3config
        { (updateIter c3config (1/60) 29 s g).1 with burstTimer := (0:ℝ) }
        (updateIter c3config (1/60) 29 s g).2).1.activeParticles
      (ParticleEmitter.burst c3config
        { (updateIter c3config (1/60) 29 s g).1 with burstTimer := (0:ℝ) }
        (updateIter c3config (1/60) 29 s g).2).1.particlePool
      (ParticleEmitter.burst c3config
        { (updateIter c3config (1/60) 29 s g).1 with burstTimer := (0:ℝ) }
        (updateIter c3config (1/60) 29 s g).2).2).1.length = 200
  rw [hS1, hbeq60, hF1, hsba]
  simp

/-- C3: counterexample to the explosion-burst scenario as stated.  The
configuration satisfies every constraint of the claim (burstMode, 200
burst particles, sphere pattern, speeds in [200,500], lifetimes in
[0.5,1.0], capacity 200) and keeps the C++ defaults elsewhere — in
particular `active = true`.  One `burst()` does make `getParticleCount()`
equal 200; but after 1.0 simulated seconds of `update(1/60)` the count is
200 again, not 0: all particles die by the thirtieth tick, yet the burst
timer reaches `burstInterval = 1` on the sixtieth tick and re-fires the
burst (draws taken from the all-zeros stream). -/
theorem C3_counterexample :
    ParticleEmitter.getParticleCount
        (ParticleEmitter.burst c3config (ParticleEmitter.init c3config) gZero).1
      = 200 ∧
    ParticleEmitter.getParticleCount
        (updateIter c3config (1/60) 60
          (ParticleEmitter.burst c3config (ParticleEmitter.init c3config) gZero).1
          (ParticleEmitter.burst c3config (ParticleEmitter.init c3config) gZero).2).1
      = 200 := by
  obtain ⟨hlen, hmem, hplen, hbt, hgs⟩ :=
    ParticleEmitter.burst_fresh c3config gZero rfl (Nat.le_refl 200) rfl
  have hmemv : ∀ x ∈ (ParticleEmitter.burst c3config
      (ParticleEmitter.init c3config) gZero).1.activeParticles,
      x.age = 0 ∧ x.lifetime = 1/2 := by
    intro x hx
    obtain ⟨hage, k, hlt⟩ := hmem x hx
    refine ⟨hage, ?_⟩
    rw [hlt, show c3config.lifetimeRange = ((1:ℝ)/2, (1:ℝ)) from rfl,
      show gZero.stream k = 0 from rfl]
    norm_num
  have hpool0 : (ParticleEmitter.burst c3config
      (ParticleEmitter.init c3config) gZero).1.particlePool = [] := by
    apply List.length_eq_zero.mp
    rw [hplen]
    rfl
  constructor
  · exact hlen
  · have h60 : updateIter c3config (1/60) 60
        (ParticleEmitter.burst c3config (ParticleEmitter.init c3config) gZero).1
        (ParticleEmitter.burst c3config (ParticleEmitter.init c3config) gZero).2
        = updateIter c3config (1/60) 30
          (updateIter c3config (1/60) 30
            (ParticleEmitter.burst c3config (ParticleEmitter.init c3config) gZero).1
            (ParticleEmitter.burst c3config (ParticleEmitter.init c3config) gZero).2).1
          (updateIter c3config (1/60) 30
            (ParticleEmitter.burst c3config (ParticleEmitter.init c3config) gZero).1
            (ParticleEmitter.burst c3config (ParticleEmitter.init c3config) gZero).2).2 := by
      rw [show (60:ℕ) = 30 + 30 from rfl, updateIter_add]
    obtain ⟨k1, k2, k3, k4, k5⟩ := c3run_dead
      (ParticleEmitter.burst c3config (ParticleEmitter.init c3config) gZero).1
      (ParticleEmitter.burst c3config (ParticleEmitter.init c3config) gZero).2
      hlen hmemv hpool0 hbt
    have hg30 : ∀ k, (updateIter c3config (1/60) 30
        (ParticleEmitter.burst c3config (ParticleEmitter.init c3config) gZero).1
        (ParticleEmitter.burst c3config (ParticleEmitter.init c3config) gZero).2).2.stream k
        = 0 := by
      intro k
      rw [k5, hgs]
      rfl
    have hfin := c3run_refire
      (updateIter c3config (1/60) 30
        (ParticleEmitter.burst c3config (ParticleEmitter.init c3config) gZero).1
        (ParticleEmitter.burst c3config (ParticleEmitter.init c3config) gZero).2).1
      (updateIter c3config (1/60) 30
        (ParticleEmitter.burst c3config (ParticleEmitter.init c3config) gZero).1
        (ParticleEmitter.burst c3config (ParticleEmitter.init c3config) gZero).2).2
      k1 k2 k3 k4 hg30
    unfold ParticleEmitter.getParticleCount
    rw [h60]
    exact hfin

/-- The scenario configuration with the emitter deactivated after setup. -/
def c3quiet : EmitterConfig := { c3config with active := false }

/-- Witness for C3: the amended scenario at the concrete configuration and
the all-zeros draw stream. -/
theorem C3_explosion_burst_witness :
    ParticleEmitter.getParticleCount
        (ParticleEmitter.burst c3quiet (ParticleEmitter.init c3quiet) gZero).1
      = 200 ∧
    ParticleEmitter.getParticleCount
        (updateIter c3quiet (1/60) 60
          (ParticleEmitter.burst c3quiet (ParticleEmitter.init c3quiet) gZero).1
          (ParticleEmitter.burst c3quiet (ParticleEmitter.init c3quiet) gZero).2).1
      = 0 :=
  C3_explosion_burst c3quiet gZero rfl rfl rfl rfl rfl (Nat.le_refl 200) rfl rfl rfl
    (fun _ => ⟨le_refl 0, by show (0:ℝ) ≤ 1; norm_num⟩)
